import Mathlib

set_option linter.unusedVariables false
set_option maxRecDepth 8192

/-! Shallow embedding of the two Ultroid AI plugins
(src/plugins/ai.py and src/plugins/gemini.py).

Python strings are Lean strings (both are sequences of Unicode code
points), optional Python strings are Option String, JSON values are the
inductive Json below, and the side effects of one handler invocation
(operations entered, outbound HTTP calls, temporary-file creation and
removal, chat messages sent or edited) are recorded as an event trace
List Ev.  External collaborators, which the spec excludes (the Telegram
host framework, the key-value store, the HTTP transport, the file
system), are oracle fields of a world structure: the outcome of each
HTTP call is supplied by the world, downloads may fail before a file is
created, and local file writes succeed (file contents are opaque).
Python-level exception TEXTS are opaque: each except branch keeps the
exact message skeleton of its source f-string, while the interpolated
exception part is either the oracle-supplied string or the placeholder
pyExc; no claim depends on those interpolated parts. -/

/-- Python truthiness of an optional string: None and the empty string are
falsy, every other string is truthy. -/
def truthy : Option String → Bool
  | none => false
  | some s => !(s == "")

/-- Python a or b on optional strings: the first operand if truthy,
otherwise the second operand (even when the second is falsy). -/
def pyOr (a b : Option String) : Option String :=
  if truthy a then a else b

/-- Python needle in hay on strings (contiguous substring test). -/
def pyIn (needle hay : String) : Bool :=
  decide (needle.data <:+: hay.data)

/-- Python str.lower(); ASCII case folding, which covers every keyword the
plugins compare against. -/
def pyLower (s : String) : String :=
  ⟨s.data.map Char.toLower⟩

/-- Python s.startswith(p). -/
def pyStartsWith (p s : String) : Bool :=
  p.data.isPrefixOf s.data

/-- Python s.rstrip("/"): drop every trailing slash. -/
def rstripSlash (s : String) : String :=
  ⟨(s.data.reverse.dropWhile (fun c => c == '/')).reverse⟩

/-- Python str.strip(): drop whitespace from both ends (structurally
recursive, unlike the byte-position-based library trim, so that concrete
scenarios evaluate inside the kernel). -/
def pyStrip (s : String) : String :=
  ⟨((s.data.dropWhile Char.isWhitespace).reverse.dropWhile Char.isWhitespace).reverse⟩

/-- Placeholder for the text of a Python-level exception whose exact wording
no claim depends on (for example a TypeError raised while indexing an
unexpected response shape). -/
def pyExc : String := "TypeError"

/-- Untyped JSON values as returned by the provider APIs. -/
inductive Json where
  | null
  | bool (b : Bool)
  | num (n : Int)
  | str (s : String)
  | arr (xs : List Json)
  | obj (kvs : List (String × Json))

namespace Json

/-- Python d.get(k) on a dict: the stored value, or none when the key is
missing or the receiver is not a dict (callers that must distinguish the
raising non-dict case match on the constructor explicitly). -/
def getKey (k : String) : Json → Option Json
  | .obj kvs => kvs.lookup k
  | _ => none

/-- Python k in d key-presence test on a dict. -/
def hasKey (k : String) : Json → Bool
  | .obj kvs => kvs.any (fun kv => kv.1 == k)
  | _ => false

/-- Python truthiness of a JSON value. -/
def truthy : Json → Bool
  | .null => false
  | .bool b => b
  | .num n => !(n == 0)
  | .str s => !(s == "")
  | .arr xs => !xs.isEmpty
  | .obj kvs => !kvs.isEmpty

/-- Truthiness of an optional JSON value (missing keys are falsy). -/
def optTruthy : Option Json → Bool
  | none => false
  | some j => j.truthy

/-- Opening brace as text. -/
def lb : String := "\x7b"

/-- Closing brace as text. -/
def rb : String := "\x7d"

/-- json.dumps, modelled up to string escaping (the plugins only ever echo
the serialized text back to the user; no claim inspects it beyond equality
with itself). -/
def dumps : Json → String
  | .null => "null"
  | .bool true => "true"
  | .bool false => "false"
  | .num n => toString n
  | .str s => "\"" ++ s ++ "\""
  | .arr xs => "[" ++ ", ".intercalate (xs.attach.map (fun x => dumps x.1)) ++ "]"
  | .obj kvs => lb ++ ", ".intercalate (kvs.attach.map (fun kv => "\"" ++ kv.1.1 ++ "\": " ++ dumps kv.1.2)) ++ rb
  decreasing_by
  · have h := List.sizeOf_lt_of_mem x.2
    simp only [Json.arr.sizeOf_spec]
    omega
  · have h := List.sizeOf_lt_of_mem kv.2
    have h2 : sizeOf kv.1.2 < sizeOf kv.1 := by
      obtain ⟨⟨a, b⟩, hm⟩ := kv
      simp
    simp only [Json.obj.sizeOf_spec]
    omega

/-- Python str(v) as used when a JSON value is interpolated into an
f-string; exact only for the string / scalar cases the plugins hit. -/
def pyStr : Json → String
  | .str s => s
  | .null => "None"
  | .bool true => "True"
  | .bool false => "False"
  | .num n => toString n
  | j => dumps j

end Json

/-- Python str(v) of an optional JSON value (missing becomes None). -/
def pyStrOpt : Option Json → String
  | some v => Json.pyStr v
  | none => "None"

/-- One observable effect of a handler invocation. -/
inductive Ev where
  /-- one of the plugin operations (coroutines) was entered -/
  | op (name : String)
  /-- an outbound HTTP request was issued to the given endpoint -/
  | netCall (endpoint : String) (payload : String)
  /-- a local temporary/media file was created at the given path -/
  | tmpCreate (path : String)
  /-- os.remove of the given path was attempted -/
  | tmpRemove (path : String)
  /-- the status message was edited to show the given text (msg.edit / eor / eod) -/
  | editMsg (text : String)
  /-- a fresh chat message with the given text was sent (event.reply) -/
  | sendMsg (text : String)
  /-- the file at the given path was sent to the chat -/
  | sendFile (path : String)
  /-- the file at the given path was sent with an optional caption -/
  | sendFileCap (path : String) (caption : Option String)
  /-- the status message was deleted -/
  | delMsg
  /-- the image was uploaded to the generic file host (upload_file) -/
  | upload
  deriving DecidableEq, Repr

/-- No outbound HTTP request occurs in the trace. -/
def noNetCall (tr : List Ev) : Prop := ∀ ep pl, Ev.netCall ep pl ∉ tr

/-- Every temporary file created during the invocation is also removed. -/
def Cleaned (tr : List Ev) : Prop :=
  ∀ p, Ev.tmpCreate p ∈ tr → Ev.tmpRemove p ∈ tr

/-- Ambient configuration state of ai.py: the runtime key-value store (udB)
and the process environment (os.environ). -/
structure Env where
  udB : String → Option String
  osEnv : String → Option String

/-- get_api_key of ai.py: DB key AI_API_KEY or OPENAI_API_KEY if truthy,
else environment AI_API_KEY or OPENAI_API_KEY. -/
def get_api_key (w : Env) : Option String :=
  let db_key := pyOr (w.udB "AI_API_KEY") (w.udB "OPENAI_API_KEY")
  if truthy db_key then db_key
  else pyOr (w.osEnv "AI_API_KEY") (w.osEnv "OPENAI_API_KEY")

/-- get_api_base of ai.py: DB key OPENAI_URL if truthy, else the hardcoded
default, with trailing slashes stripped. -/
def get_api_base (w : Env) : String :=
  let base := w.udB "OPENAI_URL"
  rstripSlash (match base, truthy base with
    | some s, true => s
    | _, _ => "https://api.openai.com")

/-- get_model of ai.py: DB key OPENAI_MODEL if truthy, else the default,
with surrounding whitespace stripped. -/
def get_model (w : Env) : String :=
  pyStrip (match pyOr (w.udB "OPENAI_MODEL") (some "gpt-3.5-turbo") with
    | some m => m
    | none => "")

/-- The exact configuration-error message of every API-calling function in
ai.py. -/
def aiKeyMsg : String :=
  "⚠️ AI API key not set. Set it using `setdb AI_API_KEY your_api_key` or export `AI_API_KEY` in your .env."

/-- Outcome of one outbound HTTP POST as seen by the plugin code: the
request (or the surrounding try body) raised; or resp.json() parsed; or
the body was not JSON and resp.json() raised ContentTypeError, leaving
status, content type and raw text. -/
inductive HttpOutcome where
  | exn (e : String)
  | json (j : Json)
  | nonJson (status : Int) (ct : String) (text : String)

/-- Result of one Python-level step inside a try block: the computed value,
or an exception that the surrounding except branch will catch (the carried
string is the exception text, opaque as explained above). -/
inductive PyRes (α : Type) where
  | ok (a : α)
  | exn (e : String)
  deriving DecidableEq

/-- The fallback dict built by _chat_completion / _image_create when the
provider returns a non-JSON body. -/
def rawWrap (text : String) (status : Int) (ct : String) : Json :=
  .obj [("_raw_text", .str text), ("_status", .num status), ("_ct", .str ct)]

/-- The OpenAI-shape extraction of _chat_completion:
data["choices"][0]["message"]["content"].strip(), any failure falling into
the except branch that echoes json.dumps(data). -/
def chatParse (data : Json) : String :=
  match data.getKey "choices" with
  | some (.arr (c0 :: _)) =>
    match c0.getKey "message" with
    | some m =>
      match m.getKey "content" with
      | some (.str s) => pyStrip s
      | _ => Json.dumps data
    | _ => Json.dumps data
  | _ => Json.dumps data

/-- _chat_completion of ai.py. -/
def chat_completion (w : Env) (resp : HttpOutcome) (prompt : String) : String × List Ev :=
  if !truthy (get_api_key w) then (aiKeyMsg, [.op "chat"])
  else
    match resp with
    | .exn e =>
      ("Error contacting AI API: " ++ e, [.op "chat", .netCall "chat/completions" prompt])
    | .json data =>
      (chatParse data, [.op "chat", .netCall "chat/completions" prompt])
    | .nonJson st ct text =>
      (chatParse (rawWrap text st ct), [.op "chat", .netCall "chat/completions" prompt])

/-- Response-parsing block of _image_create.  data must be a truthy dict
whose "data" entry is truthy; a truthy b64_json item is base64-decoded (the
oracle b64 gives the outcome of base64.b64decode on that string, which
raises for example on "A"; a truthy non-string value makes b64decode raise
a TypeError) and written to a fresh temp file, a url item downloads then
writes one, any other shape echoes json.dumps, and every Python-level
error falls into the except branch. -/
def imageCreateParse (data : Json) (b64 : String → Except String Unit)
    (dl : Except String Unit) (tmp : String) : (Option String × Option String) × List Ev :=
  match data with
  | .obj _ =>
    match data.getKey "data" with
    | some dv =>
      if dv.truthy then
        match dv with
        | .arr (item :: _) =>
          match item with
          | .obj _ =>
            if Json.optTruthy (item.getKey "b64_json") then
              match item.getKey "b64_json" with
              | some (.str sb) =>
                match b64 sb with
                | .ok _ => ((some tmp, none), [.tmpCreate tmp])
                | .error e => ((none, some ("Error parsing image response: " ++ e)), [])
              | _ => ((none, some ("Error parsing image response: " ++ pyExc)), [])
            else if Json.optTruthy (item.getKey "url") then
              match dl with
              | .ok _ => ((some tmp, none), [.tmpCreate tmp])
              | .error e => ((none, some ("Error parsing image response: " ++ e)), [])
            else ((none, some (Json.dumps data)), [])
          | _ => ((none, some ("Error parsing image response: " ++ pyExc)), [])
        | _ => ((none, some ("Error parsing image response: " ++ pyExc)), [])
      else ((none, some (Json.dumps data)), [])
    | none => ((none, some (Json.dumps data)), [])
  | _ => ((none, some (Json.dumps data)), [])

/-- _image_create of ai.py. -/
def image_create (w : Env) (resp : HttpOutcome) (b64 : String → Except String Unit)
    (dl : Except String Unit) (tmp : String)
    (prompt : String) : (Option String × Option String) × List Ev :=
  if !truthy (get_api_key w) then ((none, some aiKeyMsg), [.op "image_create"])
  else
    match resp with
    | .exn e =>
      ((none, some ("Error contacting image API: " ++ e)),
       [.op "image_create", .netCall "images/generations" prompt])
    | .json data =>
      let r := imageCreateParse data b64 dl tmp
      (r.1, .op "image_create" :: .netCall "images/generations" prompt :: r.2)
    | .nonJson st ct text =>
      let r := imageCreateParse (rawWrap text st ct) b64 dl tmp
      (r.1, .op "image_create" :: .netCall "images/generations" prompt :: r.2)

/-- Response-parsing block of _image_edit: item = res.get("data", [None])[0];
a falsy item echoes json.dumps(res), then the same b64_json (with the
base64.b64decode outcome supplied by the b64 oracle) / url / dumps chain
as image creation, with errors in its own except wording. -/
def imageEditParse (res : Json) (b64 : String → Except String Unit)
    (dl : Except String Unit) (tmp : String) : (Option String × Option String) × List Ev :=
  match res with
  | .obj _ =>
    match res.getKey "data" with
    | none => ((none, some (Json.dumps res)), [])
    | some dv =>
      match dv with
      | .arr (item :: _) =>
        if !item.truthy then ((none, some (Json.dumps res)), [])
        else
          match item with
          | .obj _ =>
            if Json.optTruthy (item.getKey "b64_json") then
              match item.getKey "b64_json" with
              | some (.str sb) =>
                match b64 sb with
                | .ok _ => ((some tmp, none), [.tmpCreate tmp])
                | .error e =>
                  ((none, some ("Error parsing image edit response: " ++ e)), [])
              | _ => ((none, some ("Error parsing image edit response: " ++ pyExc)), [])
            else if Json.optTruthy (item.getKey "url") then
              match dl with
              | .ok _ => ((some tmp, none), [.tmpCreate tmp])
              | .error e => ((none, some ("Error parsing image edit response: " ++ e)), [])
            else ((none, some (Json.dumps res)), [])
          | _ => ((none, some ("Error parsing image edit response: " ++ pyExc)), [])
      | _ => ((none, some ("Error parsing image edit response: " ++ pyExc)), [])
  | _ => ((none, some ("Error parsing image edit response: " ++ pyExc)), [])

/-- _image_edit of ai.py.  A non-JSON reply is not a generic failure: it
becomes a descriptive error embedding status, content type and body. -/
def image_edit (w : Env) (resp : HttpOutcome) (b64 : String → Except String Unit)
    (dl : Except String Unit) (tmp : String)
    (image_path prompt : String) : (Option String × Option String) × List Ev :=
  if !truthy (get_api_key w) then ((none, some aiKeyMsg), [.op "image_edit"])
  else
    match resp with
    | .exn e =>
      ((none, some ("Error contacting image edit API: " ++ e)),
       [.op "image_edit", .netCall "images/edits" prompt])
    | .nonJson st ct text =>
      ((none, some ("Image edit endpoint returned " ++ toString st ++ " " ++ ct ++ ": " ++ text)),
       [.op "image_edit", .netCall "images/edits" prompt])
    | .json res =>
      let r := imageEditParse res b64 dl tmp
      (r.1, .op "image_edit" :: .netCall "images/edits" prompt :: r.2)

/-- The fixed tier-2 description prompt of _describe_image, referencing the
hosted URL. -/
def describeUrlPrompt (url : String) : String :=
  "You are a helpful assistant. Describe the image at the following URL in a few concise sentences, then list key objects, colors, and any notable attributes. URL: " ++ url

/-- Outcome of the tier-1 multipart request of _describe_image: the request
(or the form building around it) raised; or it returned and resp.json()
parsed to j; or resp.json() raised, leaving j = None. -/
inductive Tier1 where
  | exn (e : String)
  | json (j : Json)
  | noJson

/-- One element of the texts list comprehension of _describe_image:
c.get("text") or c.get("content") or "".  some (some s) is the selected
string, some none is unused here, and none means this element raises
(non-dict element, or a truthy non-string selected value that would make
the join raise). -/
def partText (c : Json) : Option String :=
  match c with
  | .obj _ =>
    let v := if Json.optTruthy (c.getKey "text") then c.getKey "text"
             else if Json.optTruthy (c.getKey "content") then c.getKey "content"
             else some (.str "")
    match v with
    | some (.str s) => some s
    | _ => none
  | _ => none

/-- The trailing per-choice check of _describe_image:
if ch.get("text"): return ch.get("text").strip().  A missing or falsy value
falls out of the try (no text found) and a truthy non-string raises; both
end in the no-text message, hence none. -/
def textCheck (ch : Json) : Option String :=
  match ch.getKey "text" with
  | some (.str s) => if s ≠ "" then some (pyStrip s) else none
  | _ => none

/-- The OpenAI-style choices check of _describe_image. -/
def describeChoices (j : Json) : Option String :=
  match j.getKey "choices" with
  | some (.arr (ch :: _)) =>
    match ch with
    | .obj _ =>
      match ch.getKey "message" with
      | some m =>
        if m.truthy then
          match m with
          | .obj _ =>
            match m.getKey "content" with
            | some (.str s) => if s ≠ "" then some (pyStrip s) else textCheck ch
            | some v => if v.truthy then none else textCheck ch
            | none => textCheck ch
          | _ => none
        else textCheck ch
      | none => textCheck ch
    | _ => none
  | _ => none

/-- Tier-1 text extraction of _describe_image: the responses-style output
array first, then the choices array; some s is a returned text and none
means the code falls through (or raises, is logged, and falls through) to
the no-text message.  A raise inside the output section skips the choices
section, which the nesting below reproduces. -/
def describeExtract (j : Json) : Option String :=
  match j.getKey "output" with
  | some (.arr (out :: _)) =>
    match out with
    | .obj _ =>
      let contentRes : Option (Option String) :=
        match out.getKey "content" with
        | some (.arr (c :: cs)) =>
          let sel := (c :: cs).map partText
          if sel.contains none then none
          else
            let texts := sel.filterMap id
            let text := "\n".intercalate (texts.filter (fun t => t ≠ ""))
            if text ≠ "" then some (some text) else some none
        | _ => some none
      match contentRes with
      | none => none
      | some (some t) => some t
      | some none =>
        if Json.optTruthy (out.getKey "text") then some (pyStrOpt (out.getKey "text"))
        else describeChoices j
    | _ => none
  | _ => describeChoices j

/-- The no-text message of _describe_image: raw JSON truncated to 1500
characters. -/
def noTextMsg (j : Json) : String :=
  let raw := Json.dumps j
  "No textual description returned by provider. Raw response: " ++
    (⟨raw.data.take 1500⟩ ++ (if raw.length > 1500 then "..." else ""))

/-- The tier-2 fallback of _describe_image: upload_file plus a plain chat
completion over the hosted URL.  Tier 1 posts the image to the responses
endpoint; if its body yields truthy JSON, _describe_image returns either
the extracted text or the no-text message; otherwise (the request raised,
or resp.json() raised, or the JSON is falsy) it falls through to this
tier. -/
def describeTier2 (w : Env) (upl : Except String String) (chatResp : HttpOutcome) :
    String × List Ev :=
  match upl with
  | .error e => ("Failed to upload image for description: " ++ e, [.upload])
  | .ok url =>
    let r := chat_completion w chatResp (describeUrlPrompt url)
    (r.1, .upload :: r.2)

/-- _describe_image of ai.py, continued: the dispatch between the tiers. -/
def describe_image (w : Env) (t1 : Tier1) (upl : Except String String) (chatResp : HttpOutcome)
    (image_path : String) : String × List Ev :=
  if !truthy (get_api_key w) then (aiKeyMsg, [.op "describe"])
  else
    let tier2 : String × List Ev := describeTier2 w upl chatResp
    match t1 with
    | .exn e => (tier2.1, .op "describe" :: .netCall "responses" image_path :: tier2.2)
    | .noJson => (tier2.1, .op "describe" :: .netCall "responses" image_path :: tier2.2)
    | .json j =>
      if j.truthy then
        match describeExtract j with
        | some text => (text, [.op "describe", .netCall "responses" image_path])
        | none => (noTextMsg j, [.op "describe", .netCall "responses" image_path])
      else (tier2.1, .op "describe" :: .netCall "responses" image_path :: tier2.2)

/-- Outcome of the transcription POST.  resp.json() has no ContentTypeError
guard in _transcribe_audio, so a non-JSON body is an exn outcome too. -/
inductive TransOutcome where
  | exn (e : String)
  | json (j : Json)

/-- Response-parsing block of _transcribe_audio: a dict with a truthy
"text" entry yields the transcript, anything else echoes json.dumps. -/
def transcribeParse (res : Json) : Option String × Option String :=
  match res with
  | .obj _ =>
    match res.getKey "text" with
    | some v => if v.truthy then (some (Json.pyStr v), none) else (none, some (Json.dumps res))
    | none => (none, some (Json.dumps res))
  | _ => (none, some (Json.dumps res))

/-- _transcribe_audio of ai.py. -/
def transcribe_audio (w : Env) (resp : TransOutcome) (audio_path : String) :
    (Option String × Option String) × List Ev :=
  if !truthy (get_api_key w) then ((none, some aiKeyMsg), [.op "transcribe"])
  else
    match resp with
    | .exn e =>
      ((none, some ("Error contacting transcription API: " ++ e)),
       [.op "transcribe", .netCall "audio/transcriptions" audio_path])
    | .json res =>
      (transcribeParse res, [.op "transcribe", .netCall "audio/transcriptions" audio_path])

/-- The replied-to message as inspected by ai_handler. -/
structure Reply where
  /-- reply.photo is truthy -/
  photo : Bool
  /-- reply.media is truthy -/
  hasMedia : Bool
  /-- the media object's class name ends in "Document" -/
  mediaIsDocument : Bool
  /-- reply.file is not None -/
  hasFile : Bool
  /-- getattr(reply.file, "mime_type", "") -/
  mime : String
  /-- reply.voice is truthy -/
  voice : Bool
  /-- reply.message, the text of the replied message ("" when falsy/absent) -/
  message : String

/-- The is_image test of ai_handler. -/
def isImageReply (r : Reply) : Bool :=
  r.photo || (r.hasMedia && r.mediaIsDocument && r.hasFile && pyStartsWith "image" r.mime)

/-- The audio/voice test of ai_handler. -/
def isAudioReply (r : Reply) : Bool :=
  r.voice || (r.hasMedia && pyStartsWith "audio" r.mime)

/-- One invocation context of ai_handler plus its oracles: the raw command
argument, the optional reply, the path every reply.download_media() of this
invocation yields, and the outcome of each endpoint that could be called. -/
structure AiWorld where
  env : Env
  /-- event.pattern_match.group(1), before .strip() -/
  rawArg : String
  reply : Option Reply
  /-- path returned by reply.download_media() -/
  dlPath : String
  createResp : HttpOutcome
  /-- outcome of base64.b64decode on a b64_json payload during creation -/
  createB64 : String → Except String Unit
  /-- download of a url item during image creation -/
  createDl : Except String Unit
  /-- fresh temp-file name used by _image_create -/
  createTmp : String
  editResp : HttpOutcome
  editB64 : String → Except String Unit
  editDl : Except String Unit
  editTmp : String
  t1 : Tier1
  upl : Except String String
  chatResp : HttpOutcome
  transResp : TransOutcome

/-- Local validation message of the create branch. -/
def createPromptMsg : String :=
  "❌ Provide a prompt for image creation, e.g. `.ai create a red apple`"

/-- Local validation message of the image-edit branch. -/
def editInstrMsg : String :=
  "❌ Provide edit instructions after `.ai`, e.g. `.ai make it look like a painting` or `.ai describe` to get a description"

/-- Local validation message of the plain-chat branch. -/
def plainUsageMsg : String :=
  "❌ Please provide a question or use `.ai create <prompt>` for images or reply to media with `.ai <instruction>`."

/-- The failure notice prefixed to a fallback description. -/
def editFailNotice : String :=
  "⚠️ Image edit failed; here's a description instead:\n\n"

/-- The transcript reply text. -/
def transcriptTag (t : String) : String := "📝 Transcript:\n" ++ t

/-- The combined transcript-plus-instruction prompt. -/
def combinedPrompt (t a : String) : String :=
  "Transcript:\n" ++ t ++ "\n\nUser instruction: " ++ a

/-- The suggest-a-reply prompt of the text branch. -/
def suggestPrompt (original : String) : String :=
  "You are a helpful assistant. Suggest a short, polite reply to the following message:\n\n" ++ original ++ "\n\nReply:"

/-- The analyze prompt of the text branch. -/
def analyzePrompt (a original : String) : String :=
  "Analyze the following message and " ++ a ++ ":\n\n" ++ original

/-- The keyword sniffing over a lowercased image-edit error that triggers
the describe fallback. -/
def editKeyword (low : String) : Bool :=
  pyIn "edit" low || pyIn "unsupported" low || pyIn "vision" low ||
    pyIn "describe" low || pyIn "text/plain" low

/-- The transcript-keyword sniffing of the audio branch: empty instruction,
or an instruction mentioning transcript/transcribe, or one starting with
"give transcript". -/
def wantsTranscript (arg : String) : Bool :=
  arg == "" || pyIn "transcript" (pyLower arg) || pyIn "transcribe" (pyLower arg) ||
    pyStartsWith "give transcript" (pyLower arg)

/-- The trailing plain-chat fallback of ai_handler. -/
def plainChat (w : AiWorld) (arg : String) : List Ev :=
  if arg == "" then [.editMsg plainUsageMsg]
  else
    let r := chat_completion w.env w.chatResp arg
    r.2 ++ [.editMsg r.1]

/-- The image-creation branch of ai_handler (argument starting with
"create"): validate the stripped tail, create, send the file, remove the
temp file. -/
def createBranch (w : AiWorld) (arg : String) : List Ev :=
  let prompt := pyStrip ⟨arg.data.drop 6⟩
  if prompt == "" then [.editMsg createPromptMsg]
  else
    let r := image_create w.env w.createResp w.createB64 w.createDl w.createTmp prompt
    match r.1.2 with
    | some err => r.2 ++ [.editMsg err]
    | none =>
      let fp := match r.1.1 with | some fp => fp | none => ""
      r.2 ++ [.sendFile fp, .delMsg, .tmpRemove fp]

/-- The explicit describe branch of ai_handler: download the image,
describe it, remove the download, show the description. -/
def describeBranch (w : AiWorld) : List Ev :=
  let d := describe_image w.env w.t1 w.upl w.chatResp w.dlPath
  .tmpCreate w.dlPath :: (d.2 ++ [.tmpRemove w.dlPath, .editMsg d.1])

/-- The image-edit branch of ai_handler: download, edit, remove the
download; on a keyword-matching error fall back to describing (the
download path is passed although the file was already removed), else
surface the error; on success send the edited file and remove it. -/
def editBranch (w : AiWorld) (arg : String) : List Ev :=
  let er := image_edit w.env w.editResp w.editB64 w.editDl w.editTmp w.dlPath arg
  let pre := .tmpCreate w.dlPath :: (er.2 ++ [.tmpRemove w.dlPath])
  match er.1.2 with
  | some err =>
    if editKeyword (pyLower err) then
      let target := match er.1.1 with | some fp => fp | none => w.dlPath
      let d := describe_image w.env w.t1 w.upl w.chatResp target
      let rmE := match er.1.1 with | some fp => [Ev.tmpRemove fp] | none => ([] : List Ev)
      pre ++ d.2 ++ rmE ++ [.editMsg (editFailNotice ++ d.1)]
    else pre ++ [.editMsg err]
  | none =>
    let fp := match er.1.1 with | some fp => fp | none => ""
    pre ++ [.sendFile fp, .delMsg, .tmpRemove fp]

/-- The audio branch of ai_handler: download, transcribe, remove the
download; then either show the transcript or chain transcript plus
instruction into a chat completion. -/
def audioBranch (w : AiWorld) (arg : String) : List Ev :=
  let tr := transcribe_audio w.env w.transResp w.dlPath
  let pre := .tmpCreate w.dlPath :: (tr.2 ++ [.tmpRemove w.dlPath])
  match tr.1.2 with
  | some err => pre ++ [.editMsg err]
  | none =>
    let transcript := match tr.1.1 with | some t => t | none => ""
    if wantsTranscript arg then
      pre ++ [.sendMsg (transcriptTag transcript), .delMsg]
    else
      let c := chat_completion w.env w.chatResp (combinedPrompt transcript arg)
      pre ++ c.2 ++ [.sendMsg c.1, .delMsg]

/-- The text-reply branch of ai_handler: suggest a short reply to the
replied text when the instruction is empty, else analyze it per the
instruction. -/
def textBranch (w : AiWorld) (arg original : String) : List Ev :=
  let prompt := if arg == "" then suggestPrompt original else analyzePrompt arg original
  let c := chat_completion w.env w.chatResp prompt
  c.2 ++ [.sendMsg c.1, .delMsg]

/-- ai_handler of ai.py: the top-level dispatcher.  Events appear in the
order the corresponding Python statements execute. -/
def ai_handler (w : AiWorld) : List Ev :=
  let arg := (pyStrip w.rawArg)
  if pyStartsWith "create" (pyLower arg) then createBranch w arg
  else
    match w.reply with
    | some r =>
      if isImageReply r then
        if arg ≠ "" && pyStartsWith "describe" (pyLower arg) then describeBranch w
        else if arg == "" then [.editMsg editInstrMsg]
        else editBranch w arg
      else if isAudioReply r then audioBranch w arg
      else if r.message ≠ "" then textBranch w arg r.message
      else plainChat w arg
    | none => plainChat w arg

/-- The tail of text.split(maxsplit=1): everything after the first
whitespace-separated token, or "" when there is no second field. -/
def pySplitRest (s : String) : String :=
  ⟨((s.data.dropWhile Char.isWhitespace).dropWhile
      (fun c => !c.isWhitespace)).dropWhile Char.isWhitespace⟩

/-- The exact configuration-error message of the gemini handler. -/
def gemKeyMsg : String :=
  "⚠️ Please set Gemini API key using `setdb GEMINI_API_KEY your_api_key`\nYou can also set a custom model using `setdb GEMINI_MODEL <model_name>`."

/-- Media-download failure message of the gemini handler. -/
def gemMediaErrMsg : String := "An error occurred while uploading the media."

/-- Empty-prompt validation message of the gemini handler. -/
def gemNoPromptMsg : String := "Please provide a prompt."

/-- Message for an empty or missing candidates array. -/
def gemBlockedMsg : String :=
  "Request was blocked or the model could not generate a response. Check logs for details."

/-- Message for a response with no usable text. -/
def gemEmptyMsg : String :=
  "Empty response from Gemini. The model may not support this type of request. Check logs for details."

/-- The catch-all message of the gemini handler's outer except branch. -/
def gemUnexpected (e : String) : String := "An unexpected error occurred: " ++ e

/-- Model-name resolution of the gemini handler: udB GEMINI_MODEL if truthy,
else the vision default when inline media is present, else the plain
default.  The environment is never consulted. -/
def geminiModel (udB : String → Option String) (media_data : Bool) : String :=
  match pyOr (udB "GEMINI_MODEL") (some (if media_data then "gemini-pro-vision" else "gemini-pro")) with
  | some m => m
  | none => ""

/-- Everything after the first comma: the encoded payload of
uri.split(",", 1) (the surrounding guard guarantees a comma). -/
def commaRest (u : String) : String :=
  ⟨(u.data.dropWhile (fun c => !(c == ','))).drop 1⟩

/-- Python equality of a JSON value with a given string (only equal
strings compare equal; every other value compares unequal). -/
def jeqStr (s : String) : Json → Bool
  | .str s2 => s2 == s
  | _ => false

/-- The "text" handling of one part in the for-part loop of the gemini
handler: result_text += part["text"] when the key is present; a
non-string value makes the += raise a TypeError into the outer except. -/
def textStep (part : Json) : PyRes String :=
  if Json.hasKey "text" part then
    match Json.getKey "text" part with
    | some (.str s) => .ok s
    | _ => .exn pyExc
  else .ok ""

/-- The fileData handling of one part in the for-part loop of the gemini
handler: an inline base64 data URI is split, base64-decoded (outcome from
the b64 oracle, which models base64.b64decode on the payload), and written
to a gemini_media file whose extension comes from guess_extension (or
".out").  A non-dict fileData, a non-string fileUri, a missing or
non-string mimeType (guess_extension raises on those), and a failing
decode all raise into the outer except BEFORE any file is written; the
event list is the files this part wrote. -/
def partMedia (b64 : String → Except String Unit) (guessExt : String → Option String)
    (part : Json) : List Ev × PyRes (Option String) :=
  match part.getKey "fileData" with
  | none => ([], .ok none)
  | some fd =>
    match fd with
    | .obj _ =>
      match fd.getKey "fileUri" with
      | none => ([], .ok none)
      | some (.str uri) =>
        if pyStartsWith "data:" uri && pyIn ";base64," uri then
          let mime := fd.getKey "mimeType"
          match b64 (commaRest uri) with
          | .error e => ([], .exn e)
          | .ok _ =>
            match mime with
            | some (.str m) =>
              let ext := match guessExt m with
                | some e2 => if e2 ≠ "" then e2 else ".out"
                | none => ".out"
              let p := "gemini_media" ++ ext
              ([Ev.tmpCreate p], .ok (some p))
            | some _ => ([], .exn pyExc)
            | none => ([], .exn pyExc)
        else ([], .ok none)
      | some _ => ([], .exn pyExc)
    | _ => ([], .exn pyExc)

/-- The for-part loop itself, left to right: per part, the text step runs
before the fileData step; the first Python-level error aborts the loop
into the outer except, KEEPING the file events of the parts already
processed (this is the leak path); on normal completion the result is the
concatenated text and the LAST inline media path (later parts overwrite
the media_path variable).  A string part is probed by the substring tests
"text" in part / "fileData" in part and raises when one matches, a list
part by membership of those literal strings; other non-dict parts are not
iterable-indexable and raise immediately. -/
def processParts (b64 : String → Except String Unit) (guessExt : String → Option String) :
    List Json → List Ev × PyRes (String × Option String)
  | [] => ([], .ok ("", none))
  | part :: rest =>
    match part with
    | .obj _ =>
      match textStep part with
      | .exn e => ([], .exn e)
      | .ok tAdd =>
        match partMedia b64 guessExt part with
        | (evs, .exn e) => (evs, .exn e)
        | (evs, .ok mp) =>
          match processParts b64 guessExt rest with
          | (revs, .exn e) => (evs ++ revs, .exn e)
          | (revs, .ok (rt, rmp)) =>
            (evs ++ revs,
             .ok (tAdd ++ rt, match rmp with | some q => some q | none => mp))
    | .str s2 =>
      if pyIn "text" s2 || pyIn "fileData" s2 then ([], .exn pyExc)
      else processParts b64 guessExt rest
    | .arr xs =>
      if xs.any (jeqStr "text") || xs.any (jeqStr "fileData") then ([], .exn pyExc)
      else processParts b64 guessExt rest
    | _ => ([], .exn pyExc)

/-- The safety-reasons list comprehension, element by element: a non-dict
rating raises when indexed, a missing "probability" key raises a KeyError,
a kept rating with a missing "category" key raises a KeyError (the
category of a dropped rating is never evaluated); a non-string probability
compares unequal to "NEGLIGIBLE" and is kept.  Any raise aborts into the
outer except branch. -/
def safetyReasons : List Json → PyRes (List String)
  | [] => .ok []
  | r :: rest =>
    match r with
    | .obj _ =>
      match r.getKey "probability" with
      | none => .exn pyExc
      | some pv =>
        let keep := match pv with
          | .str pr => pr != "NEGLIGIBLE"
          | _ => true
        if keep then
          match r.getKey "category" with
          | none => .exn pyExc
          | some cv =>
            match safetyReasons rest with
            | .exn e => .exn e
            | .ok tail => .ok (Json.pyStr cv :: tail)
        else safetyReasons rest
    | _ => .exn pyExc

/-- The "Error: ..." text for a top-level error object: its "message" entry
if the key is present (str of the value), else the fixed default. -/
def geminiErrText (err : Json) : String :=
  match err.getKey "message" with
  | some v => Json.pyStr v
  | none => "Unknown error occurred"

/-- The chunked send phase of the gemini handler: text over 4096 characters
is cut at 4096 for the status-message edit, and the remainder is sent as new
messages in slices of 4096. -/
def chunkAux (l : List Char) : List (List Char) :=
  if h : l = [] then []
  else l.take 4096 :: chunkAux (l.drop 4096)
  termination_by l.length
  decreasing_by
    have : l.length ≠ 0 := fun hz => h (List.eq_nil_of_length_eq_zero hz)
    simp only [List.length_drop]
    omega

/-- The final send phase of the gemini handler for a plain-text result. -/
def sendLong (t : String) : List Ev :=
  if t.length > 4096 then
    Ev.editMsg ⟨t.data.take 4096⟩ ::
      (chunkAux (t.data.drop 4096)).map (fun c => Ev.sendMsg ⟨c⟩)
  else [Ev.editMsg t]

/-- candidate.get("safetyRatings", []): missing means the empty list; a
present list is iterated; a present empty string or empty dict iterates
to nothing (so the comprehension yields []); every other present value
raises while the comprehension iterates or indexes it (non-iterables
immediately, strings/dicts when a character or key is indexed by
"probability"). -/
def ratingsStep (candidate : Json) : PyRes (List Json) :=
  match candidate.getKey "safetyRatings" with
  | none => .ok []
  | some (.arr rs) => .ok rs
  | some (.str s2) => if s2 == "" then .ok [] else .exn pyExc
  | some (.obj kvs) => if kvs.isEmpty then .ok [] else .exn pyExc
  | some _ => .exn pyExc

/-- candidate.get("content", ...).get("parts", []) of the gemini handler:
a missing content defaults to the empty dict and a missing parts to the
empty list; a non-dict content makes the second .get raise; a present
non-list parts value behaves per Python iteration: a string iterates
characters (one-character strings never contain the probed keys, so it
contributes nothing), a dict iterates its keys (raising only when a key
contains "text" or "fileData" as a substring), anything else is not
iterable and raises. -/
def partsStep (candidate : Json) : PyRes (List Json) :=
  match candidate.getKey "content" with
  | none => .ok []
  | some (.obj ckvs) =>
    match Json.getKey "parts" (.obj ckvs) with
    | none => .ok []
    | some (.arr ps) => .ok ps
    | some (.str _) => .ok []
    | some (.obj pkvs) =>
      if pkvs.any (fun kv => pyIn "text" kv.1 || pyIn "fileData" kv.1) then .exn pyExc
      else .ok []
    | some _ => .exn pyExc
  | some _ => .exn pyExc

/-- The parts list the content phase actually iterates (empty when the
extraction raised or there is no first candidate). -/
def candidateParts (candidate : Json) : List Json :=
  match partsStep candidate with
  | .ok ps => ps
  | .exn _ => []

/-- The parts of the first candidate of a response (empty when there is
none or the extraction raised). -/
def responseParts (response : Json) : List Json :=
  match response.getKey "candidates" with
  | some (.arr (candidate :: _)) => candidateParts candidate
  | _ => []

/-- candidate.get("finishReason") == "SAFETY". -/
def safetyFlag (candidate : Json) : Bool :=
  match candidate.getKey "finishReason" with
  | some (.str s) => s == "SAFETY"
  | _ => false

/-- The content phase of the gemini handler: extract the parts, run the
parts loop, then either send the (last) inline media file with the text
as caption and remove that file, or report an empty response, or send the
text in chunks.  A raise anywhere lands in the outer except branch, with
the files written so far left behind. -/
def contentPhase (b64 : String → Except String Unit) (guessExt : String → Option String)
    (candidate : Json) : List Ev :=
  match partsStep candidate with
  | .exn e => [.editMsg (gemUnexpected e)]
  | .ok ps =>
    match processParts b64 guessExt ps with
    | (evs, .exn e) => evs ++ [.editMsg (gemUnexpected e)]
    | (evs, .ok (rt, mp)) =>
      match mp with
      | some p =>
        evs ++ [.delMsg, .sendFileCap p (if rt ≠ "" then some rt else none), .tmpRemove p]
      | none =>
        if pyStrip rt == "" then evs ++ [.editMsg gemEmptyMsg]
        else evs ++ sendLong rt

/-- The candidates stage of the gemini handler's response unwrapping. -/
def geminiCandidates (b64 : String → Except String Unit) (guessExt : String → Option String)
    (response : Json) : List Ev :=
  if !Json.optTruthy (response.getKey "candidates") then [.editMsg gemBlockedMsg]
  else
    match response.getKey "candidates" with
    | some (.arr (candidate :: _)) =>
      match candidate with
      | .obj _ =>
        if safetyFlag candidate then
          match ratingsStep candidate with
          | .exn e => [.editMsg (gemUnexpected e)]
          | .ok rs =>
            match safetyReasons rs with
            | .exn e => [.editMsg (gemUnexpected e)]
            | .ok reasons =>
              [.editMsg ("Blocked for safety reasons: " ++ ", ".intercalate reasons)]
        else contentPhase b64 guessExt candidate
      | _ => [.editMsg (gemUnexpected pyExc)]
    | _ => [.editMsg (gemUnexpected pyExc)]

/-- Response unwrapping of the gemini handler, checked in source order:
top-level "error" key, promptFeedback.blockReason, empty/missing candidates,
first-candidate finishReason == SAFETY, then the parts loop.  Shapes on
which the Python code would raise land in the outer except branch
(gemUnexpected). -/
def geminiRespond (b64 : String → Except String Unit) (guessExt : String → Option String)
    (response : Json) : List Ev :=
  match response with
  | .obj _ =>
    if response.hasKey "error" then
      match response.getKey "error" with
      | some (.obj kvs) => [.editMsg ("Error: " ++ geminiErrText (.obj kvs))]
      | _ => [.editMsg (gemUnexpected pyExc)]
    else if response.hasKey "promptFeedback" then
      match response.getKey "promptFeedback" with
      | some (.obj kvs) =>
        if Json.optTruthy (Json.getKey "blockReason" (.obj kvs)) then
          [.editMsg ("Blocked for: " ++ pyStrOpt (Json.getKey "blockReason" (.obj kvs)))]
        else geminiCandidates b64 guessExt response
      | _ => [.editMsg (gemUnexpected pyExc)]
    else geminiCandidates b64 guessExt response
  | _ => [.editMsg (gemUnexpected pyExc)]

/-- The replied-to message as inspected by the gemini handler, with its
media oracles. -/
structure GemReply where
  /-- reply_msg.media is truthy -/
  hasMedia : Bool
  /-- reply_msg.text ("" when falsy/absent) -/
  text : String
  /-- path returned by download_media -/
  dlPath : String
  /-- mimetypes.guess_type on the downloaded file -/
  mime : Option String
  /-- the download/encode block raised (before a file was created) -/
  dlFails : Bool

/-- One invocation context of the gemini handler plus its oracles. -/
structure GemWorld where
  udB : String → Option String
  /-- full text of the triggering message (".gem ...") -/
  eventText : String
  reply : Option GemReply
  /-- outcome of the generateContent POST: transport error or parsed JSON -/
  resp : Except String Json
  /-- base64.b64decode on an encoded payload: success or the exception text -/
  b64 : String → Except String Unit
  /-- mimetypes.guess_extension -/
  guessExt : String → Option String

/-- The tail of the gemini handler after prompt/media assembly: empty-input
validation, model resolution, the generateContent POST, and response
unwrapping; the outer try maps a transport error to the catch-all
message. -/
def geminiMain (w : GemWorld) (mediaEvs : List Ev) (media_data : Bool) (prompt : String) :
    List Ev :=
  if prompt == "" && !media_data then .op "gemini" :: mediaEvs ++ [.editMsg gemNoPromptMsg]
  else
    let model := geminiModel w.udB media_data
    match w.resp with
    | .error e =>
      .op "gemini" :: mediaEvs ++
        [.netCall ("generateContent:" ++ model) prompt, .editMsg (gemUnexpected e)]
    | .ok response =>
      .op "gemini" :: mediaEvs ++
        (.netCall ("generateContent:" ++ model) prompt :: geminiRespond w.b64 w.guessExt response)

/-- The gemini handler of gemini.py. -/
def gemini (w : GemWorld) : List Ev :=
  if !truthy (w.udB "GEMINI_API_KEY") then [.op "gemini", .editMsg gemKeyMsg]
  else
    let prompt0 := pySplitRest w.eventText
    match w.reply with
    | some r =>
      if r.hasMedia && r.dlFails then [.op "gemini", .editMsg gemMediaErrMsg]
      else
        let mediaEvs := if r.hasMedia then [Ev.tmpCreate r.dlPath, Ev.tmpRemove r.dlPath] else []
        let media_data := r.hasMedia && truthy r.mime
        let prompt := if r.text ≠ "" then
            (if prompt0 ≠ "" then r.text ++ "\n\n" ++ prompt0 else r.text)
          else prompt0
        geminiMain w mediaEvs media_data prompt
    | none => geminiMain w [] false prompt0

/-! ### Auxiliary definitions for the claim statements -/

/-- Exactly one channel of a (file path, error string) pair is non-null. -/
def exactlyOne (r : Option String × Option String) : Prop :=
  (r.1.isSome = true ∧ r.2 = none) ∨ (r.1 = none ∧ r.2.isSome = true)

/-- Modelled from the spec: the claimed priority-order resolution of a
named setting, "the first non-empty value found in priority order: runtime
key-value store, then process environment variable, then hardcoded
default".  Used only to compare the code against the claim. -/
def resolveSpec (store envv dflt : Option String) : Option String :=
  if truthy store then store else if truthy envv then envv else dflt

/-- A minimal Gemini success envelope whose single part carries the text t. -/
def gemTextResponse (t : String) : Json :=
  .obj [("candidates", .arr [.obj [("content", .obj [("parts", .arr [.obj [("text", .str t)]])])]])]

/-- Concatenation of a list of strings (foldr of append). -/
def concatAll (xs : List String) : String := xs.foldr (fun a b => a ++ b) ""

/-- The texts the chunked send phase of the gemini handler emits, in order:
the 4096-character head, then the 4096-character slices of the rest. -/
def sendChunks (t : String) : List String :=
  String.mk (t.data.take 4096) :: (chunkAux (t.data.drop 4096)).map String.mk

/-! ### Concrete scenarios used by witnesses and counterexamples -/

/-- A configuration state with no key anywhere. -/
def cexEnv : Env := ⟨fun _ => none, fun _ => none⟩

/-- A configuration state with the AI key set in the store. -/
def okEnv : Env := ⟨fun k => if k == "AI_API_KEY" then some "sk-test" else none, fun _ => none⟩

/-- A configuration state with no store entries and only OPENAI_URL in the
environment. -/
def env7 : Env :=
  ⟨fun _ => none, fun k => if k == "OPENAI_URL" then some "http://custom.example" else none⟩

/-- A reply that is a photo. -/
def photoRe : Reply :=
  { photo := true, hasMedia := false, mediaIsDocument := false, hasFile := false,
    mime := "", voice := false, message := "" }

/-- A reply that is a voice message. -/
def voiceRe : Reply :=
  { photo := false, hasMedia := true, mediaIsDocument := false, hasFile := true,
    mime := "audio/ogg", voice := true, message := "" }

/-- A base invocation of the ai command with fixed failure oracles. -/
def baseWorld : AiWorld :=
  { env := okEnv, rawArg := "", reply := none, dlPath := "dl.bin",
    createResp := .exn "conn", createB64 := fun _ => .ok (), createDl := .ok (),
    createTmp := "create_tmp.png",
    editResp := .exn "boom", editB64 := fun _ => .ok (), editDl := .ok (),
    editTmp := "edit_tmp.png",
    t1 := .exn "tier", upl := .error "up", chatResp := .exn "net",
    transResp := .json (.obj [("text", .str "hello")]) }

/-- ai invocation: photo reply, instruction "make it shiny", edit transport
error (whose message contains "edit"). -/
def w2c : AiWorld := { baseWorld with rawArg := "make it shiny", reply := some photoRe }

/-- ai invocation: voice reply, instruction "transcript". -/
def w3c : AiWorld := { baseWorld with rawArg := "transcript", reply := some voiceRe }

/-- ai invocation: voice reply, instruction "summarize it". -/
def w3w : AiWorld := { baseWorld with rawArg := "summarize it", reply := some voiceRe }

/-- ai invocation: bare "create" while replying to a photo. -/
def w10c : AiWorld := { baseWorld with rawArg := "create", reply := some photoRe }

/-- ai invocation: "create a red apple" while replying to a photo. -/
def w10w : AiWorld := { baseWorld with rawArg := "create a red apple", reply := some photoRe }

/-- ai invocation whose image edit succeeds with an inline base64 image. -/
def w6a : AiWorld :=
  { baseWorld with
    rawArg := "make it shiny"
    reply := some photoRe
    editResp := .json (.obj [("data", .arr [.obj [("b64_json", .str "QUJD")]])]) }

/-- A Gemini store with only the API key set. -/
def gemDb : String → Option String :=
  fun k => if k == "GEMINI_API_KEY" then some "gk" else none

/-- A concrete mimetypes.guess_extension table. -/
def gemExt : String → Option String :=
  fun m => if m == "image/png" then some ".png"
    else if m == "video/mp4" then some ".mp4" else none

/-- A base gem invocation: ".gem hi", no reply, an empty-object response. -/
def gemBase : GemWorld :=
  { udB := gemDb, eventText := ".gem hi", reply := none, resp := .ok (.obj []),
    b64 := fun _ => .ok (), guessExt := gemExt }

/-- A gem invocation with no API key in the store. -/
def gemNoKey : GemWorld := { gemBase with udB := fun _ => none }

/-- The exception text of base64.b64decode("A"): a single data character
cannot be one more than a multiple of four. -/
def b64BadMsg : String :=
  "Invalid base64-encoded string: number of data characters (1) cannot be 1 more than a multiple of 4"

/-- A decode oracle recording that base64.b64decode fails (as it does on
"A"). -/
def b64Bad : String → Except String Unit := fun _ => .error b64BadMsg

/-- A fileData part with an inline base64 data URI of the given mime
type. -/
def fdPart (m : String) : Json :=
  .obj [("fileData", .obj [("fileUri", .str "data:x;base64,AAAA"), ("mimeType", .str m)])]

/-- gem invocation whose response carries two inline media parts with
different mime types (png then mp4). -/
def g6c : GemWorld := { gemBase with resp := .ok (.obj [("candidates", .arr
  [.obj [("content", .obj [("parts", .arr [fdPart "image/png", fdPart "video/mp4"])])]])]) }

/-- A response carrying exactly one inline media part. -/
def g6wResp : Json := .obj [("candidates", .arr
  [.obj [("content", .obj [("parts", .arr [fdPart "image/png"])])]])]

/-- gem invocation whose response carries one inline media part. -/
def g6w : GemWorld := { gemBase with resp := .ok g6wResp }

/-- 4097 spaces: longer than 4096 characters but whitespace-only. -/
def wsText : String := String.mk (List.replicate 4097 ' ')

/-- 5000 letters: longer than 4096 characters and not whitespace-only. -/
def longText : String := String.mk (List.replicate 5000 'a')

/-- gem invocation whose response text is 4097 spaces. -/
def g5c : GemWorld := { gemBase with resp := .ok (gemTextResponse wsText) }

/-- gem invocation whose response text is 5000 letters. -/
def g5w : GemWorld := { gemBase with resp := .ok (gemTextResponse longText) }

/-! ### Helper lemmas shared by the claim theorems -/

theorem pyStartsWith_iff {p s : String} : pyStartsWith p s = true ↔ p.data <+: s.data := by
  simp [pyStartsWith, List.isPrefixOf_iff_prefix]

theorem pyIn_iff {n h : String} : pyIn n h = true ↔ n.data <:+: h.data := by
  simp [pyIn]

theorem give_transcript_in {a : String} (h : pyStartsWith "give transcript" a = true) :
    pyIn "transcript" a = true := by
  rw [pyStartsWith_iff] at h
  rw [pyIn_iff]
  exact List.IsInfix.trans (by decide) h.isInfix

theorem chat_evs {w : Env} {resp : HttpOutcome} {prompt : String} :
    ∀ e ∈ (chat_completion w resp prompt).2,
      e = .op "chat" ∨ e = .netCall "chat/completions" prompt := by
  unfold chat_completion
  split
  · intro e he; simp at he; simp [he]
  · split <;> (intro e he; simp at he; rcases he with h | h <;> simp [h])


theorem icp_spec (data : Json) (b64 : String → Except String Unit)
    (dl : Except String Unit) (tmp : String) :
    ((imageCreateParse data b64 dl tmp).1 = (some tmp, none) ∧
      (imageCreateParse data b64 dl tmp).2 = [.tmpCreate tmp]) ∨
    ((imageCreateParse data b64 dl tmp).1.1 = none ∧
      (imageCreateParse data b64 dl tmp).1.2.isSome ∧ (imageCreateParse data b64 dl tmp).2 = []) := by
  unfold imageCreateParse
  repeat' split
  all_goals first
    | exact Or.inl ⟨rfl, rfl⟩
    | exact Or.inr ⟨rfl, rfl, rfl⟩

theorem iep_spec (res : Json) (b64 : String → Except String Unit)
    (dl : Except String Unit) (tmp : String) :
    ((imageEditParse res b64 dl tmp).1 = (some tmp, none) ∧
      (imageEditParse res b64 dl tmp).2 = [.tmpCreate tmp]) ∨
    ((imageEditParse res b64 dl tmp).1.1 = none ∧
      (imageEditParse res b64 dl tmp).1.2.isSome ∧ (imageEditParse res b64 dl tmp).2 = []) := by
  unfold imageEditParse
  repeat' split
  all_goals first
    | exact Or.inl ⟨rfl, rfl⟩
    | exact Or.inr ⟨rfl, rfl, rfl⟩

theorem image_create_spec (w : Env) (resp : HttpOutcome) (b64 : String → Except String Unit)
    (dl : Except String Unit) (tmp prompt : String) :
    (∀ e ∈ (image_create w resp b64 dl tmp prompt).2,
      e = .op "image_create" ∨ e = .netCall "images/generations" prompt ∨
        (e = .tmpCreate tmp ∧ (image_create w resp b64 dl tmp prompt).1 = (some tmp, none))) ∧
    (((image_create w resp b64 dl tmp prompt).1 = (some tmp, none)) ∨
      ((image_create w resp b64 dl tmp prompt).1.1 = none ∧
        (image_create w resp b64 dl tmp prompt).1.2.isSome)) := by
  unfold image_create
  split
  · constructor
    · intro e he; simp at he; simp [he]
    · right; simp
  · match resp with
    | .exn e =>
      constructor
      · intro e he; simp at he; rcases he with h | h <;> simp [h]
      · right; simp
    | .json data =>
      dsimp only
      rcases icp_spec data b64 dl tmp with ⟨h1, h2⟩ | ⟨h1, h2, h3⟩
      · rw [h2]
        constructor
        · intro e he
          simp at he
          rcases he with h | h | h <;> simp [h, h1]
        · left; exact h1
      · rw [h3]
        constructor
        · intro e he; simp at he; rcases he with h | h <;> simp [h]
        · right; exact ⟨h1, h2⟩
    | .nonJson st ct text =>
      dsimp only
      rcases icp_spec (rawWrap text st ct) b64 dl tmp with ⟨h1, h2⟩ | ⟨h1, h2, h3⟩
      · rw [h2]
        constructor
        · intro e he
          simp at he
          rcases he with h | h | h <;> simp [h, h1]
        · left; exact h1
      · rw [h3]
        constructor
        · intro e he; simp at he; rcases he with h | h <;> simp [h]
        · right; exact ⟨h1, h2⟩

theorem image_edit_spec (w : Env) (resp : HttpOutcome) (b64 : String → Except String Unit)
    (dl : Except String Unit) (tmp path prompt : String) :
    (∀ e ∈ (image_edit w resp b64 dl tmp path prompt).2,
      e = .op "image_edit" ∨ e = .netCall "images/edits" prompt ∨
        (e = .tmpCreate tmp ∧ (image_edit w resp b64 dl tmp path prompt).1 = (some tmp, none))) ∧
    (((image_edit w resp b64 dl tmp path prompt).1 = (some tmp, none)) ∨
      ((image_edit w resp b64 dl tmp path prompt).1.1 = none ∧
        (image_edit w resp b64 dl tmp path prompt).1.2.isSome)) := by
  unfold image_edit
  split
  · constructor
    · intro e he; simp at he; simp [he]
    · right; simp
  · match resp with
    | .exn e =>
      constructor
      · intro e he; simp at he; rcases he with h | h <;> simp [h]
      · right; simp
    | .nonJson st ct text =>
      constructor
      · intro e he; simp at he; rcases he with h | h <;> simp [h]
      · right; simp
    | .json res =>
      dsimp only
      rcases iep_spec res b64 dl tmp with ⟨h1, h2⟩ | ⟨h1, h2, h3⟩
      · rw [h2]
        constructor
        · intro e he
          simp at he
          rcases he with h | h | h <;> simp [h, h1]
        · left; exact h1
      · rw [h3]
        constructor
        · intro e he; simp at he; rcases he with h | h <;> simp [h]
        · right; exact ⟨h1, h2⟩

theorem tier2_evs (w : Env) (upl : Except String String) (cr : HttpOutcome) :
    ∀ e ∈ (describeTier2 w upl cr).2,
      e = .upload ∨ e = .op "chat" ∨ ∃ pl, e = .netCall "chat/completions" pl := by
  unfold describeTier2
  match upl with
  | .error err => intro e he; simp at he; simp [he]
  | .ok url =>
    intro e he
    simp only [List.mem_cons] at he
    rcases he with h | h
    · simp [h]
    · rcases chat_evs e h with h2 | h2
      · right; left; exact h2
      · right; right; exact ⟨_, h2⟩

theorem describe_evs (w : Env) (t1 : Tier1) (upl : Except String String) (cr : HttpOutcome)
    (path : String) :
    ∀ e ∈ (describe_image w t1 upl cr path).2,
      e = .op "describe" ∨ e = .netCall "responses" path ∨ e = .upload ∨
        e = .op "chat" ∨ ∃ pl, e = .netCall "chat/completions" pl := by
  unfold describe_image
  split
  · intro e he; simp at he; simp [he]
  · match t1 with
    | .exn s =>
      intro e he
      simp only [List.mem_cons] at he
      rcases he with h | h | h
      · simp [h]
      · simp [h]
      · rcases tier2_evs w upl cr e h with h2 | h2 | h2
        · simp [h2]
        · simp [h2]
        · right; right; right; right; exact h2
    | .noJson =>
      intro e he
      simp only [List.mem_cons] at he
      rcases he with h | h | h
      · simp [h]
      · simp [h]
      · rcases tier2_evs w upl cr e h with h2 | h2 | h2
        · simp [h2]
        · simp [h2]
        · right; right; right; right; exact h2
    | .json j =>
      dsimp only
      split
      · split
        · intro e he; simp at he; rcases he with h | h <;> simp [h]
        · intro e he; simp at he; rcases he with h | h <;> simp [h]
      · intro e he
        simp only [List.mem_cons] at he
        rcases he with h | h | h
        · simp [h]
        · simp [h]
        · rcases tier2_evs w upl cr e h with h2 | h2 | h2
          · simp [h2]
          · simp [h2]
          · right; right; right; right; exact h2

theorem transcribe_evs (w : Env) (resp : TransOutcome) (path : String) :
    ∀ e ∈ (transcribe_audio w resp path).2,
      e = .op "transcribe" ∨ e = .netCall "audio/transcriptions" path := by
  unfold transcribe_audio
  split
  · intro e he; simp at he; simp [he]
  · match resp with
    | .exn s => intro e he; simp at he; rcases he with h | h <;> simp [h]
    | .json res => intro e he; simp at he; rcases he with h | h <;> simp [h]

theorem chat_no_create (w : Env) (r : HttpOutcome) (pr p : String) :
    Ev.tmpCreate p ∉ (chat_completion w r pr).2 := by
  intro h
  rcases chat_evs _ h with h2 | h2 <;> simp at h2

theorem describe_no_create (w : Env) (t1 : Tier1) (upl : Except String String)
    (cr : HttpOutcome) (path p : String) :
    Ev.tmpCreate p ∉ (describe_image w t1 upl cr path).2 := by
  intro h
  rcases describe_evs w t1 upl cr path _ h with h2 | h2 | h2 | h2 | ⟨pl, h2⟩ <;> simp at h2

theorem transcribe_no_create (w : Env) (r : TransOutcome) (path p : String) :
    Ev.tmpCreate p ∉ (transcribe_audio w r path).2 := by
  intro h
  rcases transcribe_evs w r path _ h with h2 | h2 <;> simp at h2

theorem createBranch_cleaned (w : AiWorld) (arg : String) : Cleaned (createBranch w arg) := by
  intro p hp
  unfold createBranch at hp ⊢
  dsimp only at hp ⊢
  split at hp
  · simp at hp
  · rename_i hne
    rw [if_neg hne]
    obtain ⟨hevs, hres⟩ :=
      image_create_spec w.env w.createResp w.createB64 w.createDl w.createTmp (pyStrip ⟨arg.data.drop 6⟩)
    rcases hres with hok | ⟨hn, hs⟩
    · have h2 : (image_create w.env w.createResp w.createB64 w.createDl w.createTmp
          (pyStrip ⟨arg.data.drop 6⟩)).1.2 = none := by rw [hok]
      simp only [h2] at hp ⊢
      simp only [hok] at hp ⊢
      simp only [List.mem_append, List.mem_cons] at hp
      rcases hp with hp | hp
      · rcases hevs _ hp with h | h | ⟨h, _⟩
        · simp at h
        · simp at h
        · simp only [Ev.tmpCreate.injEq] at h
          subst h
          simp
      · simp at hp
    · obtain ⟨err, herr⟩ := Option.isSome_iff_exists.mp hs
      simp only [herr] at hp ⊢
      simp only [List.mem_append, List.mem_cons] at hp
      rcases hp with hp | hp
      · rcases hevs _ hp with h | h | ⟨h, hres2⟩
        · simp at h
        · simp at h
        · rw [hres2] at herr
          simp at herr
      · simp at hp

theorem plainChat_cleaned (w : AiWorld) (arg : String) : Cleaned (plainChat w arg) := by
  intro p hp
  unfold plainChat at hp
  split at hp
  · simp at hp
  · simp only [List.mem_append, List.mem_cons] at hp
    rcases hp with hp | hp
    · exact absurd hp (chat_no_create _ _ _ _)
    · simp at hp

theorem textBranch_cleaned (w : AiWorld) (arg original : String) :
    Cleaned (textBranch w arg original) := by
  intro p hp
  unfold textBranch at hp
  dsimp only at hp
  simp only [List.mem_append, List.mem_cons] at hp
  rcases hp with hp | hp
  · exact absurd hp (chat_no_create _ _ _ _)
  · simp at hp

theorem describeBranch_cleaned (w : AiWorld) : Cleaned (describeBranch w) := by
  intro p hp
  unfold describeBranch at hp ⊢
  dsimp only at hp ⊢
  simp only [List.mem_cons, List.mem_append] at hp ⊢
  rcases hp with hp | hp | hp
  · simp only [Ev.tmpCreate.injEq] at hp
    subst hp
    simp
  · exact absurd hp (describe_no_create _ _ _ _ _ _)
  · simp at hp

theorem editBranch_cleaned (w : AiWorld) (arg : String) : Cleaned (editBranch w arg) := by
  intro p hp
  unfold editBranch at hp ⊢
  dsimp only at hp ⊢
  obtain ⟨hevs, hres⟩ := image_edit_spec w.env w.editResp w.editB64 w.editDl w.editTmp w.dlPath arg
  have hnoc : ∀ q, Ev.tmpCreate q ∈
      (image_edit w.env w.editResp w.editB64 w.editDl w.editTmp w.dlPath arg).2 →
      (image_edit w.env w.editResp w.editB64 w.editDl w.editTmp w.dlPath arg).1 =
        (some w.editTmp, none) ∧ q = w.editTmp := by
    intro q hq
    rcases hevs _ hq with h | h | ⟨h, hr2⟩
    · simp at h
    · simp at h
    · simp only [Ev.tmpCreate.injEq] at h
      exact ⟨hr2, h⟩
  rcases hres with hok | ⟨hn, hs⟩
  · have h2 : (image_edit w.env w.editResp w.editB64 w.editDl w.editTmp w.dlPath arg).1.2 = none := by
      rw [hok]
    have h1 : (image_edit w.env w.editResp w.editB64 w.editDl w.editTmp w.dlPath arg).1.1 =
        some w.editTmp := by rw [hok]
    simp only [h2, h1] at hp ⊢
    simp at hp
    rcases hp with hp | hp
    · subst hp; simp
    · obtain ⟨_, hq⟩ := hnoc _ hp
      subst hq
      simp
  · obtain ⟨err, herr⟩ := Option.isSome_iff_exists.mp hs
    simp only [herr, hn] at hp ⊢
    by_cases hkw : editKeyword (pyLower err) = true
    · rw [if_pos hkw] at hp ⊢
      simp at hp
      rcases hp with hp | hp | hp
      · subst hp; simp
      · obtain ⟨hr2, _⟩ := hnoc _ hp
        rw [hr2] at hn
        simp at hn
      · exact absurd hp (describe_no_create _ _ _ _ _ _)
    · rw [if_neg hkw] at hp ⊢
      simp at hp
      rcases hp with hp | hp
      · subst hp; simp
      · obtain ⟨hr2, _⟩ := hnoc _ hp
        rw [hr2] at hn
        simp at hn

theorem audioBranch_cleaned (w : AiWorld) (arg : String) : Cleaned (audioBranch w arg) := by
  intro p hp
  unfold audioBranch at hp ⊢
  dsimp only at hp ⊢
  have hnoc : ∀ q, Ev.tmpCreate q ∈ (transcribe_audio w.env w.transResp w.dlPath).2 → False :=
    fun q hq => transcribe_no_create _ _ _ _ hq
  split at hp
  · simp at hp
    rcases hp with hp | hp
    · subst hp; simp
    · exact absurd hp (hnoc _)
  · by_cases hw : wantsTranscript arg = true
    · rw [if_pos hw] at hp ⊢
      simp at hp
      rcases hp with hp | hp
      · subst hp; simp
      · exact absurd hp (hnoc _)
    · rw [if_neg hw] at hp ⊢
      simp at hp
      rcases hp with hp | hp | hp
      · subst hp; simp
      · exact absurd hp (hnoc _)
      · exact absurd hp (chat_no_create _ _ _ _)

theorem ai_handler_cleaned (w : AiWorld) : Cleaned (ai_handler w) := by
  unfold ai_handler
  dsimp only
  repeat' split
  all_goals first
    | exact createBranch_cleaned w _
    | exact describeBranch_cleaned w
    | exact editBranch_cleaned w _
    | exact audioBranch_cleaned w _
    | exact textBranch_cleaned w _ _
    | exact plainChat_cleaned w _
    | (intro p hp; simp at hp)

theorem partMedia_spec (b : String → Except String Unit) (g : String → Option String)
    (part : Json) :
    partMedia b g part = ([], .ok none) ∨
    (∃ e, partMedia b g part = ([], .exn e)) ∨
    (∃ p, partMedia b g part = ([Ev.tmpCreate p], .ok (some p))) := by
  unfold partMedia
  dsimp only
  repeat' split
  all_goals first
    | exact Or.inl rfl
    | exact Or.inr (Or.inl ⟨_, rfl⟩)
    | exact Or.inr (Or.inr ⟨_, rfl⟩)

theorem pp_spec (b : String → Except String Unit) (g : String → Option String)
    (parts : List Json) :
    (∀ e ∈ (processParts b g parts).1, ∃ q, e = Ev.tmpCreate q) ∧
    (∀ rt, (processParts b g parts).2 = .ok (rt, none) → (processParts b g parts).1 = []) ∧
    (∀ rt mp, (processParts b g parts).2 = .ok (rt, some mp) →
      Ev.tmpCreate mp ∈ (processParts b g parts).1) := by
  induction parts with
  | nil => refine ⟨?_, ?_, ?_⟩ <;> simp [processParts]
  | cons part rest ih =>
    obtain ⟨ih1, ih2, ih3⟩ := ih
    cases part with
    | obj kvs =>
      cases ht : textStep (Json.obj kvs) with
      | exn e => refine ⟨?_, ?_, ?_⟩ <;> simp [processParts, ht]
      | ok tAdd =>
        rcases hpm : processParts b g rest with ⟨revs, rr⟩
        rw [hpm] at ih1 ih2 ih3
        dsimp only at ih1 ih2 ih3
        rcases partMedia_spec b g (Json.obj kvs) with hm | ⟨e, hm⟩ | ⟨p, hm⟩
        · cases rr with
          | exn e =>
            refine ⟨?_, ?_, ?_⟩ <;> simp only [processParts, ht, hm, hpm, List.nil_append]
            · exact ih1
            · intro rt h; exact absurd h (by simp)
            · intro rt mp h; exact absurd h (by simp)
          | ok pr =>
            rcases pr with ⟨rt0, rmp⟩
            cases rmp with
            | none =>
              refine ⟨?_, ?_, ?_⟩ <;> simp only [processParts, ht, hm, hpm, List.nil_append]
              · exact ih1
              · intro rt _; exact ih2 rt0 rfl
              · intro rt mp h; exact absurd h (by simp)
            | some q =>
              refine ⟨?_, ?_, ?_⟩ <;> simp only [processParts, ht, hm, hpm, List.nil_append]
              · exact ih1
              · intro rt h; exact absurd h (by simp)
              · intro rt mp h
                simp only [PyRes.ok.injEq, Prod.mk.injEq, Option.some.injEq] at h
                rw [← h.2]
                exact ih3 rt0 q rfl
        · refine ⟨?_, ?_, ?_⟩ <;> simp only [processParts, ht, hm]
          · intro e2 he2; exact absurd he2 (by simp)
          · intro rt h; exact absurd h (by simp)
          · intro rt mp h; exact absurd h (by simp)
        · cases rr with
          | exn e =>
            refine ⟨?_, ?_, ?_⟩ <;>
              simp only [processParts, ht, hm, hpm, List.cons_append, List.nil_append]
            · intro e2 he2
              rcases List.mem_cons.mp he2 with he2 | he2
              · exact ⟨p, he2⟩
              · exact ih1 e2 he2
            · intro rt h; exact absurd h (by simp)
            · intro rt mp h; exact absurd h (by simp)
          | ok pr =>
            rcases pr with ⟨rt0, rmp⟩
            cases rmp with
            | none =>
              refine ⟨?_, ?_, ?_⟩ <;>
                simp only [processParts, ht, hm, hpm, List.cons_append, List.nil_append]
              · intro e2 he2
                rcases List.mem_cons.mp he2 with he2 | he2
                · exact ⟨p, he2⟩
                · exact ih1 e2 he2
              · intro rt h; exact absurd h (by simp)
              · intro rt mp h
                simp only [PyRes.ok.injEq, Prod.mk.injEq, Option.some.injEq] at h
                rw [← h.2]
                exact List.mem_cons_self _ _
            | some q =>
              refine ⟨?_, ?_, ?_⟩ <;>
                simp only [processParts, ht, hm, hpm, List.cons_append, List.nil_append]
              · intro e2 he2
                rcases List.mem_cons.mp he2 with he2 | he2
                · exact ⟨p, he2⟩
                · exact ih1 e2 he2
              · intro rt h; exact absurd h (by simp)
              · intro rt mp h
                simp only [PyRes.ok.injEq, Prod.mk.injEq, Option.some.injEq] at h
                rw [← h.2]
                exact List.mem_cons_of_mem _ (ih3 rt0 q rfl)
    | str s2 =>
      refine ⟨?_, ?_, ?_⟩ <;> simp only [processParts]
      · split
        · intro e2 he2; exact absurd he2 (by simp)
        · exact ih1
      · split
        · intro rt h; exact absurd h (by simp)
        · exact ih2
      · split
        · intro rt mp h; exact absurd h (by simp)
        · exact ih3
    | arr xs =>
      refine ⟨?_, ?_, ?_⟩ <;> simp only [processParts]
      · split
        · intro e2 he2; exact absurd he2 (by simp)
        · exact ih1
      · split
        · intro rt h; exact absurd h (by simp)
        · exact ih2
      · split
        · intro rt mp h; exact absurd h (by simp)
        · exact ih3
    | null => refine ⟨?_, ?_, ?_⟩ <;> simp [processParts]
    | bool b2 => refine ⟨?_, ?_, ?_⟩ <;> simp [processParts]
    | num n => refine ⟨?_, ?_, ?_⟩ <;> simp [processParts]
theorem sendLong_evs (t : String) :
    ∀ e ∈ sendLong t, (∃ s, e = Ev.editMsg s) ∨ ∃ s, e = Ev.sendMsg s := by
  unfold sendLong
  split
  · intro e he
    simp only [List.mem_cons] at he
    rcases he with he | he
    · exact Or.inl ⟨_, he⟩
    · rw [List.mem_map] at he
      obtain ⟨c, _, hc⟩ := he
      exact Or.inr ⟨_, hc.symm⟩
  · intro e he
    simp at he
    exact Or.inl ⟨_, he⟩

theorem cleaned_append {l1 l2 : List Ev} (h1 : Cleaned l1) (h2 : Cleaned l2) :
    Cleaned (l1 ++ l2) := by
  intro p hp
  rw [List.mem_append] at hp ⊢
  rcases hp with hp | hp
  · exact Or.inl (h1 p hp)
  · exact Or.inr (h2 p hp)

theorem cleaned_cons_of {e : Ev} {tr : List Ev} (he : ∀ p, e ≠ Ev.tmpCreate p)
    (h : Cleaned tr) : Cleaned (e :: tr) := by
  intro p hp
  rw [List.mem_cons] at hp
  rcases hp with hp | hp
  · exact absurd hp.symm (he p)
  · exact List.mem_cons_of_mem _ (h p hp)

theorem contentPhase_cleaned (b : String → Except String Unit) (g : String → Option String)
    (candidate : Json)
    (hne : ∀ e, (processParts b g (candidateParts candidate)).2 ≠ PyRes.exn e)
    (h : ∀ p q, Ev.tmpCreate p ∈ (processParts b g (candidateParts candidate)).1 →
      Ev.tmpCreate q ∈ (processParts b g (candidateParts candidate)).1 → p = q) :
    Cleaned (contentPhase b g candidate) := by
  unfold contentPhase
  cases hps : partsStep candidate with
  | exn e => intro p hp; simp at hp
  | ok ps =>
    dsimp only
    have hcp : candidateParts candidate = ps := by
      unfold candidateParts
      rw [hps]
    rw [hcp] at hne h
    obtain ⟨pp1, pp2, pp3⟩ := pp_spec b g ps
    rcases hpp : processParts b g ps with ⟨evs, rr⟩
    rw [hpp] at hne h pp1 pp2 pp3
    dsimp only at hne h pp1 pp2 pp3
    cases rr with
    | exn e => exact absurd rfl (hne e)
    | ok pr =>
      rcases pr with ⟨rt, mp⟩
      cases mp with
      | none =>
        have hevs : evs = [] := pp2 rt rfl
        subst hevs
        dsimp only
        split
        · intro p hp; simp at hp
        · intro p hp
          simp only [List.nil_append] at hp
          rcases sendLong_evs _ _ hp with ⟨s, hs⟩ | ⟨s, hs⟩ <;> simp at hs
      | some mp0 =>
        dsimp only
        intro p hp
        simp only [List.mem_append, List.mem_cons] at hp ⊢
        rcases hp with hp | hp
        · have := h p mp0 hp (pp3 rt mp0 rfl)
          subst this
          simp
        · simp at hp

theorem geminiCandidates_cleaned (b : String → Except String Unit) (g : String → Option String)
    (response : Json)
    (hne : ∀ e, (processParts b g (responseParts response)).2 ≠ PyRes.exn e)
    (h : ∀ p q, Ev.tmpCreate p ∈ (processParts b g (responseParts response)).1 →
      Ev.tmpCreate q ∈ (processParts b g (responseParts response)).1 → p = q) :
    Cleaned (geminiCandidates b g response) := by
  unfold geminiCandidates
  rcases hc : Json.getKey "candidates" response with _ | v
  · simp only [hc]
    intro p hp
    split at hp <;> simp at hp
  · try simp only [hc]
    split
    · intro p hp; simp at hp
    · rcases v with _ | b2 | n | st | xs | kvs
      case arr =>
        rcases xs with _ | ⟨c, rest2⟩
        · intro p hp; simp at hp
        · have hpr : responseParts response = candidateParts c := by
            unfold responseParts
            rw [hc]
          rcases c with _ | b3 | n2 | st2 | xs2 | kvs2
          case obj =>
            dsimp only
            split
            · repeat' split
              all_goals (intro p hp; simp at hp)
            · apply contentPhase_cleaned
              · rw [hpr] at hne; exact hne
              · rw [hpr] at h; exact h
          all_goals (intro p hp; simp at hp)
      all_goals (intro p hp; simp at hp)

theorem geminiRespond_cleaned (b : String → Except String Unit) (g : String → Option String)
    (response : Json)
    (hne : ∀ e, (processParts b g (responseParts response)).2 ≠ PyRes.exn e)
    (h : ∀ p q, Ev.tmpCreate p ∈ (processParts b g (responseParts response)).1 →
      Ev.tmpCreate q ∈ (processParts b g (responseParts response)).1 → p = q) :
    Cleaned (geminiRespond b g response) := by
  unfold geminiRespond
  repeat' split
  all_goals first
    | (intro p hp; simp at hp)
    | exact geminiCandidates_cleaned _ _ _ hne h

theorem geminiMain_cleaned (w : GemWorld) (mediaEvs : List Ev) (media_data : Bool)
    (prompt : String) (hm : Cleaned mediaEvs)
    (h : ∀ response, w.resp = .ok response →
      (∀ e, (processParts w.b64 w.guessExt (responseParts response)).2 ≠ PyRes.exn e) ∧
      (∀ p q, Ev.tmpCreate p ∈ (processParts w.b64 w.guessExt (responseParts response)).1 →
        Ev.tmpCreate q ∈ (processParts w.b64 w.guessExt (responseParts response)).1 → p = q)) :
    Cleaned (geminiMain w mediaEvs media_data prompt) := by
  unfold geminiMain
  split
  · exact cleaned_cons_of (by simp)
      (cleaned_append hm (by intro p hp; simp at hp))
  · split
    · exact cleaned_cons_of (by simp)
        (cleaned_append hm (by intro p hp; simp at hp))
    · rename_i response heq
      exact cleaned_cons_of (by simp)
        (cleaned_append hm
          (cleaned_cons_of (by simp)
            (geminiRespond_cleaned _ _ _ (h response heq).1 (h response heq).2)))

theorem gemini_cleaned (w : GemWorld)
    (h : ∀ response, w.resp = .ok response →
      (∀ e, (processParts w.b64 w.guessExt (responseParts response)).2 ≠ PyRes.exn e) ∧
      (∀ p q, Ev.tmpCreate p ∈ (processParts w.b64 w.guessExt (responseParts response)).1 →
        Ev.tmpCreate q ∈ (processParts w.b64 w.guessExt (responseParts response)).1 → p = q)) :
    Cleaned (gemini w) := by
  unfold gemini
  split
  · intro p hp; simp at hp
  · split
    · split
      · intro p hp; simp at hp
      · apply geminiMain_cleaned _ _ _ _ _ h
        split
        · intro p hp
          simp at hp
          subst hp
          simp
        · intro p hp; simp at hp
    · exact geminiMain_cleaned _ _ _ _ (by intro p hp; simp at hp) h

theorem tier2_upload (w : Env) (upl : Except String String) (cr : HttpOutcome) :
    Ev.upload ∈ (describeTier2 w upl cr).2 := by
  unfold describeTier2
  match upl with
  | .error e => simp
  | .ok url => simp

theorem mk_append (a b : List Char) : String.mk a ++ String.mk b = String.mk (a ++ b) := rfl

theorem concatAll_map_mk (ls : List (List Char)) :
    concatAll (ls.map String.mk) = String.mk ls.flatten := by
  induction ls with
  | nil => rfl
  | cons a rest ih =>
    simp only [List.map_cons, concatAll, List.foldr_cons, List.flatten_cons]
    show String.mk a ++ concatAll (rest.map String.mk) = _
    rw [ih, mk_append]

theorem chunkAux_join (l : List Char) : (chunkAux l).flatten = l := by
  have key : ∀ n (l : List Char), l.length ≤ n → (chunkAux l).flatten = l := by
    intro n
    induction n with
    | zero =>
      intro l hl
      have : l = [] := List.eq_nil_of_length_eq_zero (Nat.le_zero.mp hl)
      subst this
      rw [chunkAux]
      simp
    | succ n ih =>
      intro l hl
      rw [chunkAux]
      split
      · simp [*]
      · rename_i hne
        have h1 : 0 < l.length := List.length_pos.mpr hne
        have h2 : (l.drop 4096).length ≤ n := by
          simp only [List.length_drop]
          omega
        simp only [List.flatten_cons]
        rw [ih _ h2, List.take_append_drop]
  exact key l.length l le_rfl

theorem chunkAux_le (l : List Char) : ∀ c ∈ chunkAux l, c.length ≤ 4096 := by
  have key : ∀ n (l : List Char), l.length ≤ n → ∀ c ∈ chunkAux l, c.length ≤ 4096 := by
    intro n
    induction n with
    | zero =>
      intro l hl c hc
      have : l = [] := List.eq_nil_of_length_eq_zero (Nat.le_zero.mp hl)
      subst this
      rw [chunkAux] at hc
      simp at hc
    | succ n ih =>
      intro l hl c hc
      rw [chunkAux] at hc
      split at hc
      · simp at hc
      · rename_i hne
        simp only [List.mem_cons] at hc
        rcases hc with hc | hc
        · subst hc
          simp only [List.length_take]
          omega
        · have h1 : 0 < l.length := List.length_pos.mpr hne
          have h2 : (l.drop 4096).length ≤ n := by
            simp only [List.length_drop]
            omega
          exact ih _ h2 c hc
  exact key l.length l le_rfl

/-! ### Claim theorems -/

/-- C1: for every API-calling operation (chat completion, image generation,
image edit, image description, audio transcription, and the Gemini
handler), a missing or empty API key makes the operation return exactly the
provider's configuration-error message, with no outbound HTTP request in
its trace. -/
theorem c1_missing_key_short_circuits :
    (∀ (w : Env) (resp : HttpOutcome) (prompt : String), truthy (get_api_key w) = false →
      chat_completion w resp prompt = (aiKeyMsg, [.op "chat"]) ∧
        noNetCall (chat_completion w resp prompt).2) ∧
    (∀ (w : Env) (resp : HttpOutcome) (b64 : String → Except String Unit)
        (dl : Except String Unit) (tmp prompt : String),
      truthy (get_api_key w) = false →
      image_create w resp b64 dl tmp prompt = ((none, some aiKeyMsg), [.op "image_create"]) ∧
        noNetCall (image_create w resp b64 dl tmp prompt).2) ∧
    (∀ (w : Env) (resp : HttpOutcome) (b64 : String → Except String Unit)
        (dl : Except String Unit) (tmp path prompt : String),
      truthy (get_api_key w) = false →
      image_edit w resp b64 dl tmp path prompt = ((none, some aiKeyMsg), [.op "image_edit"]) ∧
        noNetCall (image_edit w resp b64 dl tmp path prompt).2) ∧
    (∀ (w : Env) (t1 : Tier1) (upl : Except String String) (cr : HttpOutcome) (path : String),
      truthy (get_api_key w) = false →
      describe_image w t1 upl cr path = (aiKeyMsg, [.op "describe"]) ∧
        noNetCall (describe_image w t1 upl cr path).2) ∧
    (∀ (w : Env) (resp : TransOutcome) (path : String), truthy (get_api_key w) = false →
      transcribe_audio w resp path = ((none, some aiKeyMsg), [.op "transcribe"]) ∧
        noNetCall (transcribe_audio w resp path).2) ∧
    (∀ (w : GemWorld), truthy (w.udB "GEMINI_API_KEY") = false →
      gemini w = [.op "gemini", .editMsg gemKeyMsg] ∧ noNetCall (gemini w)) := by
  refine ⟨?_, ?_, ?_, ?_, ?_, ?_⟩
  · intro w resp prompt h
    have e : chat_completion w resp prompt = (aiKeyMsg, [.op "chat"]) := by
      unfold chat_completion
      rw [h]
      rfl
    refine ⟨e, ?_⟩
    rw [e]
    intro ep pl hm
    simp at hm
  · intro w resp b64 dl tmp prompt h
    have e : image_create w resp b64 dl tmp prompt = ((none, some aiKeyMsg), [.op "image_create"]) := by
      unfold image_create
      rw [h]
      rfl
    refine ⟨e, ?_⟩
    rw [e]
    intro ep pl hm
    simp at hm
  · intro w resp b64 dl tmp path prompt h
    have e : image_edit w resp b64 dl tmp path prompt =
        ((none, some aiKeyMsg), [.op "image_edit"]) := by
      unfold image_edit
      rw [h]
      rfl
    refine ⟨e, ?_⟩
    rw [e]
    intro ep pl hm
    simp at hm
  · intro w t1 upl cr path h
    have e : describe_image w t1 upl cr path = (aiKeyMsg, [.op "describe"]) := by
      unfold describe_image
      rw [h]
      rfl
    refine ⟨e, ?_⟩
    rw [e]
    intro ep pl hm
    simp at hm
  · intro w resp path h
    have e : transcribe_audio w resp path = ((none, some aiKeyMsg), [.op "transcribe"]) := by
      unfold transcribe_audio
      rw [h]
      rfl
    refine ⟨e, ?_⟩
    rw [e]
    intro ep pl hm
    simp at hm
  · intro w h
    have e : gemini w = [.op "gemini", .editMsg gemKeyMsg] := by
      unfold gemini
      rw [h]
      rfl
    refine ⟨e, ?_⟩
    rw [e]
    intro ep pl hm
    simp at hm

/-- C1 witness: the no-key state cexEnv (and gemNoKey) makes each
operation return the exact configuration-error message without any network
event. -/
theorem c1_missing_key_witness :
    chat_completion cexEnv (.exn "x") "hi" = (aiKeyMsg, [.op "chat"]) ∧
    image_create cexEnv (.exn "x") (fun _ => .ok ()) (.ok ()) "t.png" "a cat" =
      ((none, some aiKeyMsg), [.op "image_create"]) ∧
    image_edit cexEnv (.exn "x") (fun _ => .ok ()) (.ok ()) "t.png" "i.png" "edit it" =
      ((none, some aiKeyMsg), [.op "image_edit"]) ∧
    describe_image cexEnv (.exn "x") (.error "u") (.exn "x") "i.png" =
      (aiKeyMsg, [.op "describe"]) ∧
    transcribe_audio cexEnv (.exn "x") "a.ogg" = ((none, some aiKeyMsg), [.op "transcribe"]) ∧
    gemini gemNoKey = [.op "gemini", .editMsg gemKeyMsg] :=
  ⟨(c1_missing_key_short_circuits.1 cexEnv (.exn "x") "hi" (by decide)).1,
   (c1_missing_key_short_circuits.2.1 cexEnv (.exn "x") (fun _ => .ok ()) (.ok ()) "t.png"
     "a cat" (by decide)).1,
   (c1_missing_key_short_circuits.2.2.1 cexEnv (.exn "x") (fun _ => .ok ()) (.ok ()) "t.png"
     "i.png" "edit it" (by decide)).1,
   (c1_missing_key_short_circuits.2.2.2.1 cexEnv (.exn "x") (.error "u") (.exn "x") "i.png"
     (by decide)).1,
   (c1_missing_key_short_circuits.2.2.2.2.1 cexEnv (.exn "x") "a.ogg" (by decide)).1,
   (c1_missing_key_short_circuits.2.2.2.2.2 gemNoKey (by decide)).1⟩

/-- C7 counterexample: with an empty store and OPENAI_URL set only in the
process environment, get_api_base returns the hardcoded default, not the
environment value the claimed store-env-default priority order would
give. -/
theorem c7_resolution_counterexample :
    get_api_base env7 ≠
      (resolveSpec (env7.udB "OPENAI_URL") (env7.osEnv "OPENAI_URL")
        (some "https://api.openai.com")).getD "" := by
  decide

/-- C7 amended: the API key resolves store-then-environment (primary name,
then alias, in both layers, with no hardcoded default); the base URL and
the model id resolve store-then-hardcoded-default and never consult the
environment (likewise the Gemini model; the Gemini key is read from the
store only, which the GemWorld state reflects by carrying no environment
at all). -/
theorem c7_resolution_amended :
    (∀ w w' : Env, w.udB = w'.udB →
      get_api_base w = get_api_base w' ∧ get_model w = get_model w') ∧
    (∀ w : Env, truthy (pyOr (w.udB "AI_API_KEY") (w.udB "OPENAI_API_KEY")) = true →
      get_api_key w = pyOr (w.udB "AI_API_KEY") (w.udB "OPENAI_API_KEY")) ∧
    (∀ w : Env, truthy (pyOr (w.udB "AI_API_KEY") (w.udB "OPENAI_API_KEY")) = false →
      get_api_key w = pyOr (w.osEnv "AI_API_KEY") (w.osEnv "OPENAI_API_KEY")) ∧
    (∀ w : Env, truthy (w.udB "OPENAI_URL") = false →
      get_api_base w = "https://api.openai.com") ∧
    (∀ (w : Env) (s : String), w.udB "OPENAI_URL" = some s → s ≠ "" →
      get_api_base w = rstripSlash s) ∧
    (∀ w : Env, truthy (w.udB "OPENAI_MODEL") = false → get_model w = pyStrip "gpt-3.5-turbo") ∧
    (∀ (w : Env) (s : String), w.udB "OPENAI_MODEL" = some s → s ≠ "" → get_model w = pyStrip s) ∧
    (∀ (db : String → Option String) (m : Bool), truthy (db "GEMINI_MODEL") = false →
      geminiModel db m = (if m then "gemini-pro-vision" else "gemini-pro")) ∧
    (∀ (db : String → Option String) (m : Bool) (s : String), db "GEMINI_MODEL" = some s →
      s ≠ "" → geminiModel db m = s) := by
  refine ⟨?_, ?_, ?_, ?_, ?_, ?_, ?_, ?_, ?_⟩
  · intro w w' hdb
    unfold get_api_base get_model
    rw [hdb]
    exact ⟨rfl, rfl⟩
  · intro w h
    unfold get_api_key
    dsimp only
    rw [h]
    rfl
  · intro w h
    unfold get_api_key
    dsimp only
    rw [h]
    rfl
  · intro w h
    unfold get_api_base
    rcases hu : w.udB "OPENAI_URL" with _ | s
    · rfl
    · rw [hu] at h
      unfold truthy at h
      simp at h
      subst h
      rfl
  · intro w s hu hs
    unfold get_api_base
    dsimp only
    rw [hu]
    have ht : truthy (some s) = true := by
      unfold truthy
      simp [hs]
    rw [ht]
  · intro w h
    unfold get_model pyOr
    rw [h]
    rfl
  · intro w s hu hs
    unfold get_model pyOr
    rw [hu]
    have ht : truthy (some s) = true := by
      unfold truthy
      simp [hs]
    rw [ht]
    rfl
  · intro db m h
    unfold geminiModel pyOr
    rw [h]
    cases m <;> rfl
  · intro db m s hu hs
    unfold geminiModel pyOr
    rw [hu]
    have ht : truthy (some s) = true := by
      unfold truthy
      simp [hs]
    rw [ht]
    rfl

/-- C7 witness: concrete resolutions.  With only AI_API_KEY in the store,
the key resolves from the store; with an empty store the base URL is the
default and the model is the default; with a store URL carrying a trailing
slash the URL is the store value, slash stripped. -/
theorem c7_resolution_witness :
    get_api_key okEnv = some "sk-test" ∧
    get_api_base cexEnv = "https://api.openai.com" ∧
    get_model cexEnv = pyStrip "gpt-3.5-turbo" ∧
    geminiModel gemDb false = "gemini-pro" ∧
    geminiModel gemDb true = "gemini-pro-vision" := by
  refine ⟨?_, ?_, ?_, ?_, ?_⟩
  · have h := c7_resolution_amended.2.1 okEnv (by decide)
    rw [h]
    decide
  · exact c7_resolution_amended.2.2.2.1 cexEnv (by decide)
  · exact c7_resolution_amended.2.2.2.2.2.1 cexEnv (by decide)
  · exact (c7_resolution_amended.2.2.2.2.2.2.2.1 gemDb false (by decide)).trans (by decide)
  · exact (c7_resolution_amended.2.2.2.2.2.2.2.1 gemDb true (by decide)).trans (by decide)

/-- C8 counterexample: a provider response whose first data item has the
truthy b64_json value "A" — a string base64.b64decode rejects — does NOT
yield a file path: the decode raises into the parsing except branch and
the result is (null path, "Error parsing image response: <exception>"),
with no file created, contradicting the claim that a known inline-base64
shape always yields a path with null error. -/
theorem c8_dual_channel_counterexample :
    imageCreateParse (.obj [("data", .arr [.obj [("b64_json", .str "A")]])]) b64Bad (.ok ())
        "t.png" =
      ((none, some ("Error parsing image response: " ++ b64BadMsg)), []) := by
  decide

/-- C8 amended: the image-generation and image-edit results are
dual-channel: exactly one of (file path, error string) is non-null, for
every provider response; at the parsing stage a known inline-base64 shape
yields a path with null error WHEN the base64 payload decodes, while a
failing decode raises into the except branch and yields a null path with
the parsing-error message on the error channel, and an item of unknown
shape yields a null path with the raw JSON as the error string. -/
theorem c8_dual_channel_amended :
    (∀ (w : Env) (resp : HttpOutcome) (b64 : String → Except String Unit)
        (dl : Except String Unit) (tmp prompt : String),
      exactlyOne (image_create w resp b64 dl tmp prompt).1) ∧
    (∀ (w : Env) (resp : HttpOutcome) (b64 : String → Except String Unit)
        (dl : Except String Unit) (tmp path prompt : String),
      exactlyOne (image_edit w resp b64 dl tmp path prompt).1) ∧
    (∀ (b64 : String → Except String Unit) (dl : Except String Unit) (tmp sb : String)
      (ikvs : List (String × Json)) (rest : List Json) (extra : List (String × Json)),
      sb ≠ "" → b64 sb = .ok () →
      imageCreateParse
          (.obj (("data", .arr (.obj (("b64_json", .str sb) :: ikvs) :: rest)) :: extra))
          b64 dl tmp =
        ((some tmp, none), [.tmpCreate tmp])) ∧
    (∀ (b64 : String → Except String Unit) (dl : Except String Unit) (tmp sb err : String)
      (ikvs : List (String × Json)) (rest : List Json) (extra : List (String × Json)),
      sb ≠ "" → b64 sb = .error err →
      imageCreateParse
          (.obj (("data", .arr (.obj (("b64_json", .str sb) :: ikvs) :: rest)) :: extra))
          b64 dl tmp =
        ((none, some ("Error parsing image response: " ++ err)), [])) ∧
    (∀ (b64 : String → Except String Unit) (dl : Except String Unit) (tmp : String)
      (ikvs : List (String × Json)) (rest : List Json) (extra : List (String × Json)),
      Json.optTruthy (Json.getKey "b64_json" (.obj ikvs)) = false →
      Json.optTruthy (Json.getKey "url" (.obj ikvs)) = false →
      imageCreateParse (.obj (("data", .arr (.obj ikvs :: rest)) :: extra)) b64 dl tmp =
        ((none,
          some (Json.dumps (.obj (("data", .arr (.obj ikvs :: rest)) :: extra)))), [])) := by
  refine ⟨?_, ?_, ?_, ?_, ?_⟩
  · intro w resp b64 dl tmp prompt
    rcases (image_create_spec w resp b64 dl tmp prompt).2 with hok | ⟨hn, hs⟩
    · left
      rw [hok]
      exact ⟨rfl, rfl⟩
    · right
      exact ⟨hn, hs⟩
  · intro w resp b64 dl tmp path prompt
    rcases (image_edit_spec w resp b64 dl tmp path prompt).2 with hok | ⟨hn, hs⟩
    · left
      rw [hok]
      exact ⟨rfl, rfl⟩
    · right
      exact ⟨hn, hs⟩
  · intro b64 dl tmp sb ikvs rest extra hs hb
    simp [imageCreateParse, Json.getKey, List.lookup, Json.truthy, Json.optTruthy, hs, hb]
  · intro b64 dl tmp sb err ikvs rest extra hs hb
    simp [imageCreateParse, Json.getKey, List.lookup, Json.truthy, Json.optTruthy, hs, hb]
  · intro b64 dl tmp ikvs rest extra h1 h2
    simp [imageCreateParse, Json.getKey, List.lookup, Json.truthy] at h1 h2 ⊢
    simp [h1, h2]

/-- C8 witness: a decodable base64 item yields (path, null); the failing
item of the counterexample yields (null, parsing error); an unknown-shape
item yields (null, raw JSON); and a transport failure keeps exactly one
channel non-null — each via the amended theorem at concrete inputs. -/
theorem c8_dual_channel_witness :
    imageCreateParse (.obj [("data", .arr [.obj [("b64_json", .str "QUJD")]])])
        (fun _ => .ok ()) (.ok ()) "t.png" = ((some "t.png", none), [.tmpCreate "t.png"]) ∧
    imageCreateParse (.obj [("data", .arr [.obj [("b64_json", .str "A")]])]) b64Bad (.ok ())
        "t.png" = ((none, some ("Error parsing image response: " ++ b64BadMsg)), []) ∧
    imageCreateParse (.obj [("data", .arr [.obj [("weird", .str "x")]])]) (fun _ => .ok ())
        (.ok ()) "t.png" =
      ((none, some (Json.dumps (.obj [("data", .arr [.obj [("weird", .str "x")]])]))), []) ∧
    exactlyOne (image_create okEnv (.exn "conn") (fun _ => .ok ()) (.ok ())
      "t.png" "a cat").1 :=
  ⟨c8_dual_channel_amended.2.2.1 (fun _ => .ok ()) (.ok ()) "t.png" "QUJD" [] [] []
      (by decide) rfl,
   c8_dual_channel_amended.2.2.2.1 b64Bad (.ok ()) "t.png" "A" b64BadMsg [] [] []
      (by decide) rfl,
   c8_dual_channel_amended.2.2.2.2 (fun _ => .ok ()) (.ok ()) "t.png" [("weird", .str "x")]
      [] [] (by decide) (by decide),
   c8_dual_channel_amended.1 okEnv (.exn "conn") (fun _ => .ok ()) (.ok ()) "t.png" "a cat"⟩

theorem image_create_op_mem (w : Env) (resp : HttpOutcome) (b64 : String → Except String Unit)
    (dl : Except String Unit) (tmp prompt : String) : Ev.op "image_create" ∈ (image_create w resp b64 dl tmp prompt).2 := by
  unfold image_create
  repeat' split
  all_goals simp

theorem image_edit_op_mem (w : Env) (resp : HttpOutcome) (b64 : String → Except String Unit)
    (dl : Except String Unit)
    (tmp path prompt : String) :
    Ev.op "image_edit" ∈ (image_edit w resp b64 dl tmp path prompt).2 := by
  unfold image_edit
  repeat' split
  all_goals simp

theorem describe_op_mem (w : Env) (t1 : Tier1) (upl : Except String String)
    (cr : HttpOutcome) (path : String) :
    Ev.op "describe" ∈ (describe_image w t1 upl cr path).2 := by
  unfold describe_image
  repeat' split
  all_goals simp

/-- C2: replying to a photo with a non-empty instruction that starts with
neither "create" nor "describe" makes the dispatcher invoke the image-edit
operation; and whenever image-edit returns an error whose lowercased text
matches the keyword sniffing (edit / unsupported / vision / describe /
text-plain), the dispatcher invokes the image-description operation and
edits the status message to the description prefixed by the failure
notice (describing the path the code passes, namely the edited file if any,
else the already-removed download path). -/
theorem c2_edit_then_describe (w : AiWorld) (r : Reply) (e : String)
    (hr : w.reply = some r)
    (himg : isImageReply r = true)
    (hnc : pyStartsWith "create" (pyLower (pyStrip w.rawArg)) = false)
    (hne : (pyStrip w.rawArg) ≠ "")
    (hnd : pyStartsWith "describe" (pyLower (pyStrip w.rawArg)) = false) :
    Ev.op "image_edit" ∈ ai_handler w ∧
    ((image_edit w.env w.editResp w.editB64 w.editDl w.editTmp w.dlPath (pyStrip w.rawArg)).1.2 = some e →
      editKeyword (pyLower e) = true →
      Ev.op "describe" ∈ ai_handler w ∧
      Ev.editMsg (editFailNotice ++
        (describe_image w.env w.t1 w.upl w.chatResp
          (match (image_edit w.env w.editResp w.editB64 w.editDl w.editTmp w.dlPath (pyStrip w.rawArg)).1.1 with
            | some fp => fp
            | none => w.dlPath)).1) ∈ ai_handler w) := by
  have hd : ai_handler w = editBranch w (pyStrip w.rawArg) := by
    unfold ai_handler
    dsimp only
    rw [hnc]
    rw [if_neg (by simp)]
    rw [hr]
    dsimp only
    rw [himg, if_pos rfl]
    simp only [hnd, Bool.and_false]
    rw [if_neg (by simp)]
    rw [if_neg (by simp [hne])]
  rw [hd]
  unfold editBranch
  dsimp only
  constructor
  · rcases Option.eq_none_or_eq_some
        ((image_edit w.env w.editResp w.editB64 w.editDl w.editTmp w.dlPath (pyStrip w.rawArg)).1.2) with
      hn | ⟨err, hs⟩
    · simp only [hn]
      simp [image_edit_op_mem]
    · simp only [hs]
      split
      · simp [image_edit_op_mem]
      · simp [image_edit_op_mem]
  · intro herr hkw
    simp only [herr]
    rw [if_pos hkw]
    constructor
    · simp [describe_op_mem]
    · simp

/-- C2 witness: at w2c the edit endpoint raises ("boom"), the error text
"Error contacting image edit API: boom" contains "edit", and the handler
invokes image-edit, then image-description, and edits the status message to
the failure notice plus the description. -/
theorem c2_edit_then_describe_witness :
    Ev.op "image_edit" ∈ ai_handler w2c ∧
    Ev.op "describe" ∈ ai_handler w2c ∧
    Ev.editMsg (editFailNotice ++ "Failed to upload image for description: up") ∈
      ai_handler w2c := by
  have h := c2_edit_then_describe w2c photoRe "Error contacting image edit API: boom"
    rfl (by decide) (by decide) (by decide) (by decide)
  have h2 := h.2 (by decide) (by decide)
  refine ⟨h.1, h2.1, ?_⟩
  have h3 := h2.2
  have he : (describe_image w2c.env w2c.t1 w2c.upl w2c.chatResp
      (match (image_edit w2c.env w2c.editResp w2c.editB64 w2c.editDl w2c.editTmp w2c.dlPath
        (pyStrip w2c.rawArg)).1.1 with
        | some fp => fp
        | none => w2c.dlPath)).1 = "Failed to upload image for description: up" := by decide
  rw [he] at h3
  exact h3

/-- C3 counterexample: replying to a voice message with the non-empty
instruction "transcript", the dispatcher sends the raw transcript (tagged)
and never enters the chat-completion operation, contradicting the claim
that a non-empty instruction always yields a chat-completion answer. -/
theorem c3_transcript_counterexample :
    pyStrip w3c.rawArg ≠ "" ∧
    Ev.sendMsg (transcriptTag "hello") ∈ ai_handler w3c ∧
    Ev.op "chat" ∉ ai_handler w3c := by
  decide

/-- C3 amended: replying to a voice or audio message whose transcription
succeeds with transcript t: an empty instruction replies with the
transcript prefixed by the transcript tag; a non-empty instruction that
mentions neither "transcript" nor "transcribe" replies with the
chat-completion answer over the combined transcript-plus-instruction
prompt (never the raw transcript); instructions mentioning those keywords
get the raw transcript, which is what falsifies the original claim. -/
theorem c3_transcript_amended (w : AiWorld) (r : Reply) (t : String)
    (hr : w.reply = some r)
    (hnc : pyStartsWith "create" (pyLower (pyStrip w.rawArg)) = false)
    (hni : isImageReply r = false)
    (ha : isAudioReply r = true)
    (ht : (transcribe_audio w.env w.transResp w.dlPath).1 = (some t, none)) :
    (pyStrip w.rawArg = "" →
      ai_handler w =
        (Ev.tmpCreate w.dlPath ::
          ((transcribe_audio w.env w.transResp w.dlPath).2 ++ [Ev.tmpRemove w.dlPath])) ++
          [Ev.sendMsg (transcriptTag t), Ev.delMsg]) ∧
    (pyStrip w.rawArg ≠ "" →
      pyIn "transcript" (pyLower (pyStrip w.rawArg)) = false →
      pyIn "transcribe" (pyLower (pyStrip w.rawArg)) = false →
      ai_handler w =
        (Ev.tmpCreate w.dlPath ::
          ((transcribe_audio w.env w.transResp w.dlPath).2 ++ [Ev.tmpRemove w.dlPath])) ++
          (chat_completion w.env w.chatResp (combinedPrompt t (pyStrip w.rawArg))).2 ++
          [Ev.sendMsg (chat_completion w.env w.chatResp
            (combinedPrompt t (pyStrip w.rawArg))).1, Ev.delMsg]) := by
  have hd : ai_handler w = audioBranch w (pyStrip w.rawArg) := by
    unfold ai_handler
    dsimp only
    rw [hnc]
    rw [if_neg (by simp)]
    rw [hr]
    dsimp only
    rw [hni]
    rw [if_neg (by simp)]
    rw [ha, if_pos rfl]
  have h2 : (transcribe_audio w.env w.transResp w.dlPath).1.2 = none := by rw [ht]
  have h1 : (transcribe_audio w.env w.transResp w.dlPath).1.1 = some t := by rw [ht]
  constructor
  · intro harg
    rw [hd]
    unfold audioBranch
    dsimp only
    simp only [h2, h1]
    rw [if_pos (by unfold wantsTranscript; rw [harg]; rfl)]
  · intro harg hk1 hk2
    rw [hd]
    unfold audioBranch
    dsimp only
    simp only [h2, h1]
    rw [if_neg (by
      unfold wantsTranscript
      have hk3 : pyStartsWith "give transcript" (pyLower (pyStrip w.rawArg)) = false := by
        by_contra hcon
        rw [Bool.not_eq_false] at hcon
        rw [give_transcript_in hcon] at hk1
        simp at hk1
      simp [harg, hk1, hk2, hk3])]

/-- C3 witness: at w3w ("summarize it" over a voice reply with transcript
"hello"), the handler sends the chat-completion answer over the combined
prompt; the concrete trace follows by applying the amended theorem. -/
theorem c3_transcript_witness :
    ai_handler w3w =
      (Ev.tmpCreate w3w.dlPath ::
        ((transcribe_audio w3w.env w3w.transResp w3w.dlPath).2 ++ [Ev.tmpRemove w3w.dlPath])) ++
        (chat_completion w3w.env w3w.chatResp (combinedPrompt "hello" (pyStrip w3w.rawArg))).2 ++
        [Ev.sendMsg (chat_completion w3w.env w3w.chatResp
          (combinedPrompt "hello" (pyStrip w3w.rawArg))).1, Ev.delMsg] :=
  (c3_transcript_amended w3w voiceRe "hello" rfl (by decide) (by decide) (by decide)
    (by decide)).2 (by decide) (by decide) (by decide)

/-- C10 counterexample: the bare argument "create" (replying to a photo)
starts with "create", yet the handler performs no image generation: it only
reports the empty-prompt validation error, contradicting the claim that
every such invocation performs image generation. -/
theorem c10_create_counterexample :
    pyStartsWith "create" (pyLower (pyStrip w10c.rawArg)) = true ∧
    Ev.op "image_create" ∉ ai_handler w10c := by
  decide

/-- C10 amended: whenever the (stripped) argument starts with "create"
(case-insensitive), the create branch runs before any reply inspection:
the only operation the handler can enter is image generation (never image
edit, description, transcription, or chat), image generation is entered
whenever the remaining prompt is non-empty, and an empty remaining prompt
yields only the local validation error. -/
theorem c10_create_first (w : AiWorld)
    (h : pyStartsWith "create" (pyLower (pyStrip w.rawArg)) = true) :
    (∀ n, Ev.op n ∈ ai_handler w → n = "image_create") ∧
    (pyStrip ⟨(pyStrip w.rawArg).data.drop 6⟩ ≠ "" →
      Ev.op "image_create" ∈ ai_handler w) ∧
    (pyStrip ⟨(pyStrip w.rawArg).data.drop 6⟩ = "" →
      ai_handler w = [.editMsg createPromptMsg]) := by
  have hd : ai_handler w = createBranch w (pyStrip w.rawArg) := by
    unfold ai_handler
    dsimp only
    rw [h, if_pos rfl]
  rw [hd]
  refine ⟨?_, ?_, ?_⟩
  · intro n hn
    unfold createBranch at hn
    dsimp only at hn
    split at hn
    · simp at hn
    · obtain ⟨hevs, _⟩ :=
        image_create_spec w.env w.createResp w.createB64 w.createDl w.createTmp
          (pyStrip ⟨(pyStrip w.rawArg).data.drop 6⟩)
      rcases Option.eq_none_or_eq_some
          ((image_create w.env w.createResp w.createB64 w.createDl w.createTmp
            (pyStrip ⟨(pyStrip w.rawArg).data.drop 6⟩)).1.2) with hno | ⟨err, hso⟩
      · rw [hno] at hn
        dsimp only at hn
        simp only [List.mem_append, List.mem_cons] at hn
        rcases hn with hn | hn
        · rcases hevs _ hn with h2 | h2 | ⟨h2, _⟩
          · simp at h2
            exact h2
          · simp at h2
          · simp at h2
        · simp at hn
      · rw [hso] at hn
        dsimp only at hn
        simp only [List.mem_append, List.mem_cons] at hn
        rcases hn with hn | hn
        · rcases hevs _ hn with h2 | h2 | ⟨h2, _⟩
          · simp at h2
            exact h2
          · simp at h2
          · simp at h2
        · simp at hn
  · intro hne
    unfold createBranch
    dsimp only
    rw [if_neg (by simp [hne])]
    rcases Option.eq_none_or_eq_some
        ((image_create w.env w.createResp w.createB64 w.createDl w.createTmp
          (pyStrip ⟨(pyStrip w.rawArg).data.drop 6⟩)).1.2) with hno | ⟨err, hso⟩
    · rw [hno]
      dsimp only
      simp [image_create_op_mem]
    · rw [hso]
      dsimp only
      simp [image_create_op_mem]
  · intro he
    unfold createBranch
    dsimp only
    rw [if_pos (by simp [he])]

/-- C10 witness: "create a red apple" replying to a photo enters image
generation and never image edit. -/
theorem c10_create_first_witness :
    Ev.op "image_create" ∈ ai_handler w10w ∧ Ev.op "image_edit" ∉ ai_handler w10w := by
  have h := c10_create_first w10w (by decide)
  refine ⟨h.2.1 (by decide), fun hm => ?_⟩
  have := h.1 _ hm
  simp at this

/-- C9 counterexample: with a key set, tier 1 returns the JSON body (the
empty object) WITHOUT raising, yet the operation performs tier 2 (the
upload event appears) and returns the tier-2 result instead of the
truncated raw JSON — contradicting both directions of the claim
(tier 2 iff tier 1 raises; JSON with no text yields the truncated raw
JSON without tier 2). -/
theorem c9_tier2_counterexample :
    describe_image okEnv (.json (.obj [])) (.error "up") (.exn "net") "p.png" =
      ("Failed to upload image for description: up",
       [.op "describe", .netCall "responses" "p.png", .upload]) := by
  decide

/-- C9 amended: with a key set, tier 2 (upload plus chat over the hosted
URL) is performed if and only if tier 1 raised, or its body was not JSON,
or its JSON was falsy (such as the empty object); when tier 1 yields truthy
JSON with no extractable text, the operation returns the no-text message
(raw JSON truncated to 1500 characters) and performs no tier 2. -/
theorem c9_tier2_amended (w : Env) (t1 : Tier1) (upl : Except String String)
    (cr : HttpOutcome) (path : String) (hk : truthy (get_api_key w) = true) :
    (Ev.upload ∈ (describe_image w t1 upl cr path).2 ↔
      (t1 = Tier1.noJson ∨ (∃ e, t1 = Tier1.exn e) ∨
        ∃ j, t1 = Tier1.json j ∧ j.truthy = false)) ∧
    (∀ j, t1 = Tier1.json j → j.truthy = true → describeExtract j = none →
      describe_image w t1 upl cr path =
        (noTextMsg j, [.op "describe", .netCall "responses" path])) := by
  have hred : describe_image w t1 upl cr path =
      (match t1 with
       | .exn _ => ((describeTier2 w upl cr).1,
          .op "describe" :: .netCall "responses" path :: (describeTier2 w upl cr).2)
       | .noJson => ((describeTier2 w upl cr).1,
          .op "describe" :: .netCall "responses" path :: (describeTier2 w upl cr).2)
       | .json j =>
        if j.truthy then
          match describeExtract j with
          | some text => (text, [.op "describe", .netCall "responses" path])
          | none => (noTextMsg j, [.op "describe", .netCall "responses" path])
        else ((describeTier2 w upl cr).1,
          .op "describe" :: .netCall "responses" path :: (describeTier2 w upl cr).2)) := by
    unfold describe_image
    rw [hk]
    rfl
  rcases t1 with e | j0 | _
  · refine ⟨⟨fun _ => Or.inr (Or.inl ⟨e, rfl⟩), fun _ => ?_⟩, ?_⟩
    · rw [hred]
      simp only [List.mem_cons]
      right; right
      exact tier2_upload w upl cr
    · intro j hj
      exact absurd hj (by simp)
  · by_cases hj : j0.truthy = true
    · refine ⟨⟨?_, ?_⟩, ?_⟩
      · intro hmem
        exfalso
        rw [hred] at hmem
        dsimp only at hmem
        rw [if_pos hj] at hmem
        rcases Option.eq_none_or_eq_some (describeExtract j0) with hex | ⟨txt, hex⟩
        · rw [hex] at hmem
          simp at hmem
        · rw [hex] at hmem
          simp at hmem
      · rintro (h | ⟨e, h⟩ | ⟨j, h, htr⟩)
        · exact absurd h (by simp)
        · exact absurd h (by simp)
        · rw [Tier1.json.injEq] at h
          subst h
          rw [hj] at htr
          exact absurd htr (by simp)
      · intro j hjeq htr hex
        rw [Tier1.json.injEq] at hjeq
        subst hjeq
        rw [hred]
        dsimp only
        rw [if_pos htr, hex]
    · refine ⟨⟨?_, ?_⟩, ?_⟩
      · intro _
        right; right
        exact ⟨j0, rfl, by simpa using hj⟩
      · intro _
        rw [hred]
        dsimp only
        rw [if_neg hj]
        simp only [List.mem_cons]
        right; right
        exact tier2_upload w upl cr
      · intro j hjeq htr hex
        rw [Tier1.json.injEq] at hjeq
        subst hjeq
        exact absurd htr hj
  · refine ⟨⟨fun _ => Or.inl rfl, fun _ => ?_⟩, ?_⟩
    · rw [hred]
      simp only [List.mem_cons]
      right; right
      exact tier2_upload w upl cr
    · intro j hj
      exact absurd hj (by simp)

/-- C9 witness: at a concrete truthy-JSON response with no extractable
text, the operation returns the no-text message without tier 2, by the
amended theorem. -/
theorem c9_tier2_witness :
    describe_image okEnv (.json (.obj [("foo", .num 1)])) (.error "up") (.exn "net") "p.png" =
      (noTextMsg (.obj [("foo", .num 1)]),
       [.op "describe", .netCall "responses" "p.png"]) :=
  (c9_tier2_amended okEnv (.json (.obj [("foo", .num 1)])) (.error "up") (.exn "net") "p.png"
    (by decide)).2 _ rfl (by decide) (by decide)

/-- C6 counterexample: a Gemini response with two inline fileData parts of
different mime types makes the handler write gemini_media.png and then
gemini_media.mp4, but remove only the last one — gemini_media.png is
created and never removed, contradicting the claim that no temporary file
survives handler completion. -/
theorem c6_cleanup_counterexample :
    Ev.tmpCreate "gemini_media.png" ∈ gemini g6c ∧
    Ev.tmpRemove "gemini_media.png" ∉ gemini g6c := by
  decide

/-- C6 amended: every ai-handler invocation removes every temporary file it
created (download, generated or edited image), on success, error, and
fallback paths alike; the gemini handler does so provided its parts loop
completes without raising (well-shaped parts and no failing inline base64
decode) and its inline media parts yield at most one distinct media path —
a raise mid-loop leaks the files written before it, and with several
distinct paths only the last is removed.  Host-framework sends and local
file writes are modelled as succeeding, and a failing download raises
before a file is created, matching the spec's exclusion of those
collaborators. -/
theorem c6_cleanup_amended :
    (∀ w : AiWorld, Cleaned (ai_handler w)) ∧
    (∀ w : GemWorld,
      (∀ response, w.resp = .ok response →
        (∀ e, (processParts w.b64 w.guessExt (responseParts response)).2 ≠ PyRes.exn e) ∧
        (∀ p q, Ev.tmpCreate p ∈ (processParts w.b64 w.guessExt (responseParts response)).1 →
          Ev.tmpCreate q ∈ (processParts w.b64 w.guessExt (responseParts response)).1 → p = q)) →
      Cleaned (gemini w)) :=
  ⟨ai_handler_cleaned, fun w h => gemini_cleaned w h⟩

/-- C6 witness: a successful edit (w6a) creates the download and the edited
file and both are removed; a one-media Gemini response (g6w) has its
media file removed. -/
theorem c6_cleanup_witness :
    Ev.tmpRemove "edit_tmp.png" ∈ ai_handler w6a ∧
    Ev.tmpRemove "dl.bin" ∈ ai_handler w6a ∧
    Ev.tmpRemove "gemini_media.png" ∈ gemini g6w := by
  refine ⟨c6_cleanup_amended.1 w6a "edit_tmp.png" (by decide),
    c6_cleanup_amended.1 w6a "dl.bin" (by decide), ?_⟩
  have hhyp : ∀ response, g6w.resp = .ok response →
      (∀ e, (processParts g6w.b64 g6w.guessExt (responseParts response)).2 ≠ PyRes.exn e) ∧
      (∀ p q, Ev.tmpCreate p ∈ (processParts g6w.b64 g6w.guessExt (responseParts response)).1 →
        Ev.tmpCreate q ∈ (processParts g6w.b64 g6w.guessExt (responseParts response)).1 →
          p = q) := by
    intro response hr
    have hr2 : Except.ok (ε := String) g6wResp = .ok response := hr
    injection hr2 with h
    subst h
    have e : processParts g6w.b64 g6w.guessExt (responseParts g6wResp) =
        ([Ev.tmpCreate "gemini_media.png"], .ok ("", some "gemini_media.png")) := by decide
    refine ⟨?_, ?_⟩
    · intro e2
      rw [e]
      simp
    · intro p q hp hq
      rw [e] at hp hq
      simp at hp hq
      rw [hp, hq]
  exact c6_cleanup_amended.2 g6w hhyp "gemini_media.png" (by decide)

theorem str_append_nil (t : String) : t ++ "" = t := by
  cases t
  show String.mk _ = String.mk _
  rw [List.append_nil]

theorem gemini_dispatch (w : GemWorld) (response : Json)
    (hk : truthy (w.udB "GEMINI_API_KEY") = true)
    (hrep : w.reply = none)
    (hp : pySplitRest w.eventText ≠ "")
    (hresp : w.resp = .ok response) :
    gemini w = .op "gemini" :: .netCall ("generateContent:" ++ geminiModel w.udB false)
      (pySplitRest w.eventText) :: geminiRespond w.b64 w.guessExt response := by
  unfold gemini
  rw [hk]
  rw [if_neg (by simp)]
  rw [hrep]
  dsimp only
  unfold geminiMain
  rw [if_neg (by simp [hp])]
  rw [hresp]
  rfl

theorem pyStrip_eq_empty (s : String) (h : ∀ c ∈ s.data, c.isWhitespace = true) :
    pyStrip s = "" := by
  unfold pyStrip
  have h1 : s.data.dropWhile Char.isWhitespace = [] := List.dropWhile_eq_nil_iff.mpr h
  rw [h1]
  rfl

theorem pyStrip_ne_empty (s : String) (c : Char) (hc : c ∈ s.data)
    (hw : c.isWhitespace = false) : pyStrip s ≠ "" := by
  unfold pyStrip
  intro hcon
  have hdata : (((s.data.dropWhile Char.isWhitespace).reverse.dropWhile
      Char.isWhitespace).reverse) = [] := congrArg String.data hcon
  rw [List.reverse_eq_nil_iff, List.dropWhile_eq_nil_iff] at hdata
  have h1 : s.data.dropWhile Char.isWhitespace = [] := by
    rcases hd : s.data.dropWhile Char.isWhitespace with _ | ⟨x, xs⟩
    · rfl
    · exfalso
      have hx : x ∈ (s.data.dropWhile Char.isWhitespace).reverse := by
        rw [hd]; simp
      have := hdata x hx
      have hhead := List.head_dropWhile_not s.data (p := Char.isWhitespace)
      rw [hd] at hhead
      simp at hhead
      rw [this] at hhead
      simp at hhead
  rw [List.dropWhile_eq_nil_iff] at h1
  rw [h1 c hc] at hw
  simp at hw

theorem wsText_length : wsText.length = 4097 := by
  show (List.replicate 4097 ' ').length = 4097
  rw [List.length_replicate]

theorem longText_length : longText.length = 5000 := by
  show (List.replicate 5000 'a').length = 5000
  rw [List.length_replicate]

/-- C5 counterexample: 4097 spaces exceed 4096 characters, yet the handler
does not split them: the strip-empty check fires first and a single
"empty response" message is emitted, so no chunked messages reconstruct
the text. -/
theorem c5_chunk_counterexample :
    wsText.length > 4096 ∧
    gemini g5c = [.op "gemini", .netCall "generateContent:gemini-pro" "hi",
      .editMsg gemEmptyMsg] := by
  constructor
  · rw [wsText_length]
    norm_num
  · rw [gemini_dispatch g5c (gemTextResponse wsText) (by decide) rfl (by decide) rfl]
    have hstep : geminiRespond g5c.b64 g5c.guessExt (gemTextResponse wsText) =
        contentPhase g5c.b64 g5c.guessExt
          (.obj [("content", .obj [("parts", .arr [.obj [("text", .str wsText)]])])]) := rfl
    rw [hstep]
    unfold contentPhase
    have hps : partsStep
        (.obj [("content", .obj [("parts", .arr [.obj [("text", .str wsText)]])])]) =
        PyRes.ok [.obj [("text", .str wsText)]] := rfl
    rw [hps]
    dsimp only
    have hpp : processParts g5c.b64 g5c.guessExt [.obj [("text", .str wsText)]] =
        ([], .ok (wsText ++ "", none)) := rfl
    rw [hpp]
    dsimp only
    rw [str_append_nil]
    rw [if_pos (by
      rw [pyStrip_eq_empty wsText (by
        intro c hc
        have := List.mem_replicate.mp hc
        rw [this.2]
        decide)]
      rfl)]
    rfl

/-- C5 amended: for every result text longer than 4096 characters that is
not whitespace-only, the send phase edits the status message to the first
4096-character chunk and sends every later 4096-character chunk as a new
message in order; the chunks each have at most 4096 characters and their
in-order concatenation is exactly the original text; and a gem invocation
whose response carries such a text as its single part emits exactly those
messages. -/
theorem c5_chunking_amended (t : String) (h1 : t.length > 4096) (h2 : pyStrip t ≠ "") :
    sendLong t = Ev.editMsg (String.mk (t.data.take 4096)) ::
      (chunkAux (t.data.drop 4096)).map (fun c => Ev.sendMsg (String.mk c)) ∧
    concatAll (sendChunks t) = t ∧
    (∀ c ∈ sendChunks t, c.length ≤ 4096) ∧
    (∀ w : GemWorld, truthy (w.udB "GEMINI_API_KEY") = true → w.reply = none →
      pySplitRest w.eventText ≠ "" → w.resp = .ok (gemTextResponse t) →
      gemini w = .op "gemini" :: .netCall ("generateContent:" ++ geminiModel w.udB false)
        (pySplitRest w.eventText) :: sendLong t) := by
  refine ⟨?_, ?_, ?_, ?_⟩
  · unfold sendLong
    rw [if_pos h1]
  · show String.mk (t.data.take 4096) ++ concatAll ((chunkAux (t.data.drop 4096)).map String.mk) = t
    rw [concatAll_map_mk, mk_append, chunkAux_join, List.take_append_drop]
  · intro c hc
    unfold sendChunks at hc
    simp only [List.mem_cons, List.mem_map] at hc
    rcases hc with hc | ⟨l, hl, hc⟩
    · subst hc
      show (t.data.take 4096).length ≤ 4096
      simp only [List.length_take]
      omega
    · subst hc
      exact chunkAux_le _ _ hl
  · intro w hk hrep hp hresp
    rw [gemini_dispatch w (gemTextResponse t) hk hrep hp hresp]
    have hstep : geminiRespond w.b64 w.guessExt (gemTextResponse t) =
        contentPhase w.b64 w.guessExt
          (.obj [("content", .obj [("parts", .arr [.obj [("text", .str t)]])])]) := rfl
    rw [hstep]
    unfold contentPhase
    have hps : partsStep
        (.obj [("content", .obj [("parts", .arr [.obj [("text", .str t)]])])]) =
        PyRes.ok [.obj [("text", .str t)]] := rfl
    rw [hps]
    dsimp only
    have hpp : processParts w.b64 w.guessExt [.obj [("text", .str t)]] =
        ([], .ok (t ++ "", none)) := rfl
    rw [hpp]
    dsimp only
    rw [str_append_nil]
    rw [if_neg (by simp [h2])]
    rfl

/-- C5 witness: the 5000-letter text is chunked by the handler at g5w, and
the chunk concatenation reconstructs it, via the amended theorem. -/
theorem c5_chunking_witness :
    gemini g5w = .op "gemini" :: .netCall ("generateContent:" ++ geminiModel g5w.udB false)
      (pySplitRest g5w.eventText) :: sendLong longText ∧
    concatAll (sendChunks longText) = longText := by
  have h1 : longText.length > 4096 := by
    rw [longText_length]
    norm_num
  have h2 : pyStrip longText ≠ "" :=
    pyStrip_ne_empty longText 'a'
      (List.mem_replicate.mpr ⟨by norm_num, rfl⟩) (by decide)
  have h := c5_chunking_amended longText h1 h2
  exact ⟨h.2.2.2 g5w (by decide) rfl (by decide) rfl, h.2.1⟩
